import Mathlib

/-!
# OjaInjection dependency-injection core: a shallow embedding

This file embeds the resolution and lifecycle engine of the OjaInjection
dependency-injection container (`Container`, `Scope`, `TickManager`,
`ContainerErrors` in `src/Injection/Core`) and proves the behavioural
properties stated about it.

Modelling conventions:
* Tokens and constructors (the two kinds of lookup keys) are `Key.token n`
  and `Key.ctor n`; identity equality of the host language becomes equality
  of the numeric identifier.
* Instances are numeric identifiers allocated from a counter in the world
  state; `instClasses` remembers which class constructed each instance.
* Class metadata (the data stamped by decorators / the transformer and read
  through `Reflect.GetMetadata`) is an environment function `classes`.
* Host-language exceptions become an `Except CError` result; because thrown
  errors in Luau do not roll back heap mutations, every operation returns
  the (possibly partially) mutated world even when it fails.
* Observable side effects (constructions, `Start`/`Destroy` invocations,
  tick delivery, tick (un)registration, host-clock subscriptions) are
  recorded in an event trace.
* Recursive resolution and recursive scope destruction take a fuel
  parameter; exhausting fuel yields the distinguished `CError.outOfFuel`
  (respectively `none`), which no theorem ever relies on.
-/

namespace Oja

/-- A lookup key: either an opaque token minted by `createToken` or a class
constructor. Mirrors the `Token | Constructor` union used for all lookup
tables in the source. -/
inductive Key where
  | token (id : Nat)
  | ctor (id : Nat)
deriving DecidableEq, Repr

/-- Numeric identifier of a key. -/
def Key.kid : Key → Nat
  | .token n => n
  | .ctor n => n

/-- `isToken` from `Tokens/CreateToken.ts`: true exactly for values minted by
`createToken`. -/
def Key.isToken : Key → Bool
  | .token _ => true
  | .ctor _ => false

/-- Service lifetime (`Types/Lifetime`). -/
inductive Lifetime where
  | singleton
  | scoped
  | factory
deriving DecidableEq, Repr

/-- The `Type` discriminator on `ServiceRegistration` records. -/
inductive RegKind where
  | single
  | multi
  | keyed
deriving DecidableEq, Repr

/-- A value produced by resolution: a plain instance, the instance list of a
multi-injection, the callable returned for a keyed injection (capturing the
scope passed at resolve time), or `nil`/undefined. -/
inductive Value where
  | inst (id : Nat)
  | listV (ids : List Nat)
  | factoryV (token : Key) (scopeId : Option Nat)
  | undef
deriving DecidableEq, Repr

/-- Observable events of a run. -/
inductive Event where
  | enterConstruct (key : Key)
  | newInstance (inst : Nat) (cls : Nat) (args : List Value)
  | startInvoked (inst : Nat)
  | destroyInvoked (inst : Nat)
  | warned
  | regTick (inst : Nat)
  | regFixedTick (inst : Nat)
  | regRenderTick (inst : Nat)
  | unregTick (inst : Nat)
  | unregFixedTick (inst : Nat)
  | unregRenderTick (inst : Nat)
  | connectedHeartbeat
  | connectedRender
  | ticked (inst : Nat)
  | fixedTicked (inst : Nat)
  | renderTicked (inst : Nat)
deriving DecidableEq, Repr

/-- Structured form of the errors raised through `ContainerErrors`. Plain
`error(...)` calls that bypass `ContainerErrors` become `plainError`. -/
inductive CError where
  | circularDependency (token : Key) (chain : List Key) (rendered : String)
  | missingRegistration (token : Key) (chain : List Key)
  | invalidToken
  | lifetimeViolation (token : Key)
  | constructorError (token : Key) (chain : List Key)
  | duplicateRegistration (token : Key)
  | validationFailed (count : Nat)
  | destroyedScope (scopeId : Nat)
  | keyedKeyMissing (token : Key) (key : String) (available : List String)
      (message : String)
  | plainError (message : String)
  | missingScope (scopeId : Nat)
  | outOfFuel
deriving DecidableEq, Repr

deriving instance DecidableEq for Except

/-! ## Insertion-ordered association lists

`Map` objects of the host source keep insertion order; we model them as
association lists with JS-`Map` update semantics. -/

/-- `Map.get`: first binding of the key. -/
def assocFind {β : Type} (l : List (Key × β)) (k : Key) : Option β :=
  match l with
  | [] => none
  | (k', v) :: rest => if k' = k then some v else assocFind rest k

/-- `Map.set`: overwrite in place when present, else append. -/
def assocSet {β : Type} (l : List (Key × β)) (k : Key) (v : β) :
    List (Key × β) :=
  match l with
  | [] => [(k, v)]
  | (k', v') :: rest =>
      if k' = k then (k, v) :: rest else (k', v') :: assocSet rest k v

/-- String-keyed variant for keyed registrations. -/
def sassocFind {β : Type} (l : List (String × β)) (k : String) : Option β :=
  match l with
  | [] => none
  | (k', v) :: rest => if k' = k then some v else sassocFind rest k

/-- String-keyed `Map.set`. -/
def sassocSet {β : Type} (l : List (String × β)) (k : String) (v : β) :
    List (String × β) :=
  match l with
  | [] => [(k, v)]
  | (k', v') :: rest =>
      if k' = k then (k, v) :: rest else (k', v') :: sassocSet rest k v

/-- Nat-keyed variant for instance bookkeeping. -/
def nassocFind {β : Type} (l : List (Nat × β)) (k : Nat) : Option β :=
  match l with
  | [] => none
  | (k', v) :: rest => if k' = k then some v else nassocFind rest k

/-- Nat-keyed `Map.set`. -/
def nassocSet {β : Type} (l : List (Nat × β)) (k : Nat) (v : β) :
    List (Nat × β) :=
  match l with
  | [] => [(k, v)]
  | (k', v') :: rest =>
      if k' = k then (k, v) :: rest else (k', v') :: nassocSet rest k v

/-- Luau `unorderedRemove`: move the last element into the removed slot and
drop the last slot (used by `TickManager.Unregister*`). -/
def unorderedRemove {α : Type} (l : List α) (i : Nat) : List α :=
  match l.getLast? with
  | none => l
  | some x => (l.set i x).dropLast

/-- `Array.indexOf` as used before `unorderedRemove`. -/
def indexOf {α : Type} [DecidableEq α] (l : List α) (a : α) : Option Nat :=
  l.findIdx? (fun x => x = a)

/-! ## Class metadata and environment -/

/-- Per-class metadata stamped by the decorators / transformer and probed
through `Reflect.GetMetadata` plus the structural capability checks
(`typeIs(impl.Start, "function")`, etc.). -/
structure ClassInfo where
  /-- `MetadataKeys.DependencyTokens`: sparse positional injection keys. -/
  dependencyTokens : List (Option Key) := []
  /-- `MetadataKeys.Dependencies`: auto-wired positional parameter types. -/
  autowiredDeps : List (Option Key) := []
  /-- `MetadataKeys.RuntimeParameters`: parameter indices supplied at
  call time. -/
  runtimeParams : List Nat := []
  /-- `MetadataKeys.Lifetime` stamped by the lifetime decorator. -/
  lifetimeMeta : Option Lifetime := none
  hasStart : Bool := false
  hasDestroy : Bool := false
  hasTick : Bool := false
  hasFixedTick : Bool := false
  hasRenderTick : Bool := false
  hasWarmup : Bool := false

/-- Static environment of a run: class metadata, display names
(`__description` / class `name`), whether user lifecycle methods throw, and
whether the host renders (`RunService.IsClient`). -/
structure Env where
  classes : Nat → ClassInfo
  names : Key → String := fun _ => "svc"
  destroyThrows : Nat → Bool := fun _ => false
  startThrows : Nat → Bool := fun _ => false
  tickThrows : Nat → Bool := fun _ => false
  isClient : Bool := false

/-! ## Tick manager -/

/-- State of the global `TickManager`. `subCount` counts the live host-clock
subscriptions (`RBXScriptConnection`s) actually held; the two booleans mirror
the two optional connection fields. -/
structure TickState where
  tickables : List Nat := []
  fixedTickables : List Nat := []
  renderTickables : List Nat := []
  heartbeatConnected : Bool := false
  renderConnected : Bool := false
  paused : Bool := false
  subCount : Nat := 0
deriving DecidableEq, Repr

/-- `TickManager.EnsureHeartbeatConnection`. -/
def tmEnsureHeartbeat (tm : TickState) : List Event × TickState :=
  if tm.heartbeatConnected then ([], tm)
  else ([.connectedHeartbeat],
    { tm with heartbeatConnected := true, subCount := tm.subCount + 1 })

/-- `TickManager.EnsureRenderSteppedConnection` (connects only on rendering
hosts). -/
def tmEnsureRender (env : Env) (tm : TickState) : List Event × TickState :=
  if ¬tm.renderConnected ∧ env.isClient then
    ([.connectedRender],
      { tm with renderConnected := true, subCount := tm.subCount + 1 })
  else ([], tm)

/-- `TickManager.RegisterTickable`. -/
def tmRegisterTickable (tm : TickState) (t : Nat) : List Event × TickState :=
  let tm' := { tm with tickables := tm.tickables ++ [t] }
  let (evs, tm'') := tmEnsureHeartbeat tm'
  (.regTick t :: evs, tm'')

/-- `TickManager.RegisterFixedTickable`. -/
def tmRegisterFixedTickable (tm : TickState) (t : Nat) :
    List Event × TickState :=
  let tm' := { tm with fixedTickables := tm.fixedTickables ++ [t] }
  let (evs, tm'') := tmEnsureHeartbeat tm'
  (.regFixedTick t :: evs, tm'')

/-- `TickManager.RegisterRenderTickable`. -/
def tmRegisterRenderTickable (env : Env) (tm : TickState) (t : Nat) :
    List Event × TickState :=
  let tm' := { tm with renderTickables := tm.renderTickables ++ [t] }
  let (evs, tm'') := tmEnsureRender env tm'
  (.regRenderTick t :: evs, tm'')

/-- `TickManager.UnregisterTickable`: `indexOf` then `unorderedRemove`. -/
def tmUnregisterTickable (tm : TickState) (t : Nat) : TickState :=
  match indexOf tm.tickables t with
  | none => tm
  | some i => { tm with tickables := unorderedRemove tm.tickables i }

/-- `TickManager.UnregisterFixedTickable`. -/
def tmUnregisterFixedTickable (tm : TickState) (t : Nat) : TickState :=
  match indexOf tm.fixedTickables t with
  | none => tm
  | some i => { tm with fixedTickables := unorderedRemove tm.fixedTickables i }

/-- `TickManager.UnregisterRenderTickable`. -/
def tmUnregisterRenderTickable (tm : TickState) (t : Nat) : TickState :=
  match indexOf tm.renderTickables t with
  | none => tm
  | some i =>
      { tm with renderTickables := unorderedRemove tm.renderTickables i }

/-- `TickManager.Pause`. -/
def tmPause (tm : TickState) : TickState := { tm with paused := true }

/-- `TickManager.Resume`. -/
def tmResume (tm : TickState) : TickState := { tm with paused := false }

/-- `TickManager.Destroy`: disconnect both connections and clear the lists. -/
def tmDestroy (tm : TickState) : TickState :=
  { tickables := [], fixedTickables := [], renderTickables := [],
    heartbeatConnected := false, renderConnected := false,
    paused := tm.paused,
    subCount := tm.subCount
      - (if tm.heartbeatConnected then 1 else 0)
      - (if tm.renderConnected then 1 else 0) }

/-- One tickable invocation wrapped in the `try`/`warn` trap of `TickAll`. -/
def tickOne (env : Env) (mk : Nat → Event) (t : Nat) : List Event :=
  if env.tickThrows t then [mk t, .warned] else [mk t]

/-- One firing of the host `Heartbeat` signal. The callback exists only when
the connection does; it returns immediately while paused; otherwise
`TickAll` runs the logic list then the fixed list, each call error-trapped. -/
def tmHeartbeatStep (env : Env) (tm : TickState) : List Event :=
  if tm.heartbeatConnected then
    if tm.paused then []
    else
      tm.tickables.flatMap (tickOne env .ticked) ++
        tm.fixedTickables.flatMap (tickOne env .fixedTicked)
  else []

/-- One firing of the host `RenderStepped` signal (`RenderTickAll`). -/
def tmRenderStep (env : Env) (tm : TickState) : List Event :=
  if tm.renderConnected then
    if tm.paused then []
    else tm.renderTickables.flatMap (tickOne env .renderTicked)
  else []

/-! ## Registrations, container and scope state -/

/-- A `ServiceRegistration` record as built by `Container.Use`. -/
structure ServiceRegistration where
  token : Key
  implementation : Option Nat
  lifetime : Lifetime
  rkind : RegKind
  key : Option String := none
deriving DecidableEq, Repr

/-- `registration.Implementation || registration.Token`: when the
implementation slot is empty the token itself is cast to a constructor. -/
def regClassOf (reg : ServiceRegistration) : Nat :=
  reg.implementation.getD reg.token.kid

/-- The private fields of `Container`. -/
structure ContainerState where
  registrations : List (Key × List ServiceRegistration) := []
  singletons : List (Key × Nat) := []
  multiRegistrations : List (Key × List Nat) := []
  keyedRegistrations : List (Key × List (String × Nat)) := []
  validated : Bool := false
deriving DecidableEq, Repr

/-- The private fields of one `Scope` object. -/
structure ScopeState where
  parent : Option Nat := none
  scopedInstances : List (Key × Nat) := []
  childScopes : List Nat := []
  externalInstances : List (Key × Nat) := []
  destroyed : Bool := false
  destroyables : List Nat := []
  tickables : List Nat := []
  fixedTickables : List Nat := []
  renderTickables : List Nat := []
deriving DecidableEq, Repr

/-- The whole mutable heap of a run: the container, all scope objects, the
global tick manager, and the instance allocator. -/
structure World where
  container : ContainerState := {}
  scopes : List (Nat × ScopeState) := []
  nextScopeId : Nat := 0
  tick : TickState := {}
  nextInstanceId : Nat := 0
  instClasses : List (Nat × Nat) := []
deriving DecidableEq, Repr

/-- Result of one operation: the emitted events, the (possibly partially
mutated) world, and the returned value or thrown error. Thrown errors do not roll
back heap mutations, matching Luau `error` semantics. -/
structure Out (α : Type) where
  events : List Event
  world : World
  res : Except CError α
deriving DecidableEq

/-- Sequencing: on success continue with the new world, concatenating
events; a thrown error propagates and keeps the mutated world. -/
def Out.andThen {α β : Type} (o : Out α) (f : α → World → Out β) : Out β :=
  match o.res with
  | .error e => ⟨o.events, o.world, .error e⟩
  | .ok a =>
      let o2 := f a o.world
      ⟨o.events ++ o2.events, o2.world, o2.res⟩

/-- `Container.GetRegistration`: first registration for the token. -/
def getRegistration (c : ContainerState) (k : Key) :
    Option ServiceRegistration :=
  (assocFind c.registrations k).bind (·.head?)

/-- `Container.RegisterSingle`. -/
def registerSingle (c : ContainerState) (k : Key)
    (reg : ServiceRegistration) : ContainerState :=
  let cur := (assocFind c.registrations k).getD []
  { c with registrations := assocSet c.registrations k (cur ++ [reg]) }

/-- `Container.RegisterMulti`. -/
def registerMulti (c : ContainerState) (k : Key) (impl : Nat) :
    ContainerState :=
  let cur := (assocFind c.multiRegistrations k).getD []
  { c with multiRegistrations := assocSet c.multiRegistrations k (cur ++ [impl]) }

/-- `Container.RegisterKeyed`. -/
def registerKeyed (c : ContainerState) (k : Key) (s : String) (impl : Nat) :
    ContainerState :=
  let cur := (assocFind c.keyedRegistrations k).getD []
  { c with keyedRegistrations :=
      assocSet c.keyedRegistrations k (sassocSet cur s impl) }

/-! ## Container.Use -/

/-- One entry of a module's `GetRegistrations()` list. -/
structure ModuleRegistration where
  token : Key
  implementation : Nat
  lifetime : Lifetime
deriving DecidableEq, Repr

/-- The accumulators of a `ContainerRegister` handed to `Use`. Keyed
registrations arrive flattened to `(token, key, implementation)` entries,
exactly as `ContainerRegister.Keyed` flattens its record argument. -/
structure ModuleRegister where
  registrations : List ModuleRegistration := []
  multiRegistrations : List (Key × List Nat) := []
  keyedRegistrations : List (Key × String × Nat) := []

/-- The single/scoped/factory loop of `Container.Use`: each entry is checked
for duplicates and inserted; the first duplicate aborts with
`DuplicateRegistration`, keeping everything inserted before it. -/
def useSingles (c : ContainerState) :
    List ModuleRegistration → ContainerState × Option CError
  | [] => (c, none)
  | r :: rest =>
      -- ValidateToken: all embedded keys are valid tokens or constructors.
      let sreg : ServiceRegistration :=
        { token := r.token, implementation := some r.implementation,
          lifetime := r.lifetime, rkind := .single }
      if (assocFind c.registrations r.token).isSome then
        (c, some (.duplicateRegistration r.token))
      else
        useSingles (registerSingle c r.token sreg) rest

/-- `Container.Use`: singles (may abort on a duplicate), then multi, then
keyed, then `validated := false`. On abort the flag is untouched because the
reset is the last statement of `Use`. -/
def containerUse (w : World) (m : ModuleRegister) : Out Unit :=
  match useSingles w.container m.registrations with
  | (c, some e) => ⟨[], { w with container := c }, .error e⟩
  | (c, none) =>
      let c := m.multiRegistrations.foldl
        (fun c p => p.2.foldl (fun c impl => registerMulti c p.1 impl) c) c
      let c := m.keyedRegistrations.foldl
        (fun c t => registerKeyed c t.1 t.2.1 t.2.2) c
      ⟨[], { w with container := { c with validated := false } }, .ok ()⟩

/-! ## Validation -/

/-- The `maxLength` computed from the three metadata lists. -/
def getMaxLength (ci : ClassInfo) : Nat :=
  max ci.dependencyTokens.length
    (max ci.autowiredDeps.length
      (if ci.runtimeParams ≠ [] then ci.runtimeParams.foldl max 0 + 1 else 0))

/-- `dependencyTokens?.[i] || autowiredDeps?.[i]`. -/
def depAt (ci : ClassInfo) (i : Nat) : Option Key :=
  match ci.dependencyTokens.getD i none with
  | some k => some k
  | none => ci.autowiredDeps.getD i none

/-- `Container.ValidateRegistration`: the first unregistered non-runtime
dependency key, if any (the source throws at the first one found). -/
def validateRegistrationChk (env : Env) (c : ContainerState)
    (reg : ServiceRegistration) : Option CError :=
  let ci := env.classes (regClassOf reg)
  ((List.range (getMaxLength ci)).filterMap fun i =>
    if i ∈ ci.runtimeParams then none
    else
      match depAt ci i with
      | none => none
      | some tk =>
          if (getRegistration c tk).isNone ∧
              assocFind c.multiRegistrations tk = none ∧
              assocFind c.keyedRegistrations tk = none then
            some (.plainError ("Dependency not registered: " ++ env.names tk
              ++ " Required by: " ++ env.names reg.token))
          else none).head?

/-- `Container.Validate`: a no-op when already validated; otherwise collect
per-registration errors (the `ValidateNoServiceLocator` pass has an empty
loop body in the source and contributes nothing), fail with the aggregate
when any, else set `validated := true`. -/
def containerValidate (env : Env) (w : World) : Out Unit :=
  if w.container.validated then ⟨[], w, .ok ()⟩
  else
    let errs := w.container.registrations.flatMap fun p =>
      p.2.filterMap (validateRegistrationChk env w.container)
    if errs.length > 0 then ⟨[], w, .error (.validationFailed errs.length)⟩
    else
      ⟨[], { w with container := { w.container with validated := true } },
        .ok ()⟩

/-! ## Shared helpers of the resolution engine -/

/-- `ContainerErrors.FormatChain`: names joined with the arrow glyph. -/
def formatChain (env : Env) (chain : List Key) : String :=
  if chain.isEmpty then "[]"
  else String.intercalate " → " (chain.map env.names)

/-- `Container.ValidateDeadService`: scoped/factory-stamped classes may not
inject `IContainer` or `IScope`. -/
def validateDeadService (env : Env) (clsId : Nat) (dep : Key) :
    Option CError :=
  match (env.classes clsId).lifetimeMeta with
  | some .scoped | some .factory =>
      if env.names dep = "IContainer" ∨ env.names dep = "IScope" then
        some (.plainError "[OjaInjection] DeadService: Service locator anti-pattern detected")
      else none
  | _ => none

/-- `Container.ValidateLifecycleInterfaces`: `Warmup` is singleton-only. -/
def validateLifecycle (env : Env) (clsId : Nat) (lt : Lifetime) :
    Option CError :=
  if lt ≠ .singleton ∧ (env.classes clsId).hasWarmup then
    some (.plainError "[OjaInjection] LifecycleViolation: IWarmupable can only be used on singleton services")
  else none

/-- Update one scope object in place. -/
def updateScope (w : World) (sid : Nat) (f : ScopeState → ScopeState) :
    World :=
  match nassocFind w.scopes sid with
  | none => w
  | some s => { w with scopes := nassocSet w.scopes sid (f s) }

/-- `Scope.TrackInstance`: push into the matching tracking lists and
register ticking capabilities with the global tick manager. -/
def trackInstance (env : Env) (w : World) (sid : Nat) (i : Nat) :
    List Event × World :=
  match nassocFind w.instClasses i with
  | none => ([], w)
  | some cls =>
      let ci := env.classes cls
      let w := if ci.hasDestroy then
          updateScope w sid (fun s =>
            { s with destroyables := s.destroyables ++ [i] })
        else w
      let (evs1, w) :=
        if ci.hasTick then
          let w := updateScope w sid (fun s =>
            { s with tickables := s.tickables ++ [i] })
          let (evs, tm) := tmRegisterTickable w.tick i
          (evs, { w with tick := tm })
        else ([], w)
      let (evs2, w) :=
        if ci.hasFixedTick then
          let w := updateScope w sid (fun s =>
            { s with fixedTickables := s.fixedTickables ++ [i] })
          let (evs, tm) := tmRegisterFixedTickable w.tick i
          (evs, { w with tick := tm })
        else ([], w)
      let (evs3, w) :=
        if ci.hasRenderTick then
          let w := updateScope w sid (fun s =>
            { s with renderTickables := s.renderTickables ++ [i] })
          let (evs, tm) := tmRegisterRenderTickable env w.tick i
          (evs, { w with tick := tm })
        else ([], w)
      (evs1 ++ evs2 ++ evs3, w)

/-- `Container.ResolveKeyed` merely builds and returns the keyed-factory
callable, capturing the scope passed at resolve time; the callable's body is
`invokeKeyed` below. -/
def resolveKeyedC (w : World) (token : Key) (scope? : Option Nat) :
    Out Value :=
  ⟨[], w, .ok (.factoryV token scope?)⟩

/-! ## The resolution engine

Every function takes a fuel parameter and passes the decremented fuel to all
callees; exhausting fuel yields `CError.outOfFuel`. The `try`/`catch` in
`CreateInstanceWithContext` re-throws unchanged: its "already prefixed"
test is the Luau pattern `string.find(e, "[OjaInjection]")`, where `[...]`
is a character class, so any message containing one of the letters
`OjaIncet` counts as prefixed — which every message this engine can produce
does. -/

mutual

/-- `Container.Resolve`. -/
def containerResolve (fuel : Nat) (env : Env) (w : World) (token : Key) :
    Out Value :=
  match fuel with
  | 0 => ⟨[], w, .error .outOfFuel⟩
  | fuel + 1 =>
    (containerValidate env w).andThen fun _ w =>
    -- ValidateToken: all embedded keys are valid tokens or constructors.
    if token.isToken ∧
        (assocFind w.container.keyedRegistrations token).isSome then
      resolveKeyedC w token none
    else
      match assocFind w.container.singletons token with
      | some i => ⟨[], w, .ok (.inst i)⟩
      | none =>
        match getRegistration w.container token with
        | none => ⟨[], w, .error (.missingRegistration token [token])⟩
        | some reg =>
          if reg.lifetime ≠ .singleton then
            ⟨[], w, .error (.lifetimeViolation token)⟩
          else
            (createInstanceWithContext fuel env w reg [] none []).andThen
              fun i w =>
                ⟨[], { w with container := { w.container with
                    singletons := assocSet w.container.singletons token i } },
                  .ok (.inst i)⟩

/-- `Container.CreateInstanceWithContext`. -/
def createInstanceWithContext (fuel : Nat) (env : Env) (w : World)
    (reg : ServiceRegistration) (chain : List Key) (scope? : Option Nat)
    (runtimeArgs : List Value) : Out Nat :=
  match fuel with
  | 0 => ⟨[], w, .error .outOfFuel⟩
  | fuel + 1 =>
    let implCls := regClassOf reg
    if reg.token ∈ chain then
      ⟨[], w, .error (.circularDependency reg.token (chain ++ [reg.token])
        (formatChain env (chain ++ [reg.token])))⟩
    else
      (Out.mk [.enterConstruct reg.token] w (.ok ())).andThen fun _ w =>
      (resolveDepsLoop fuel env w implCls
          (List.range (getMaxLength (env.classes implCls)))
          (chain ++ [reg.token]) scope? runtimeArgs []).andThen fun deps w =>
      let i := w.nextInstanceId
      let w := { w with
        nextInstanceId := i + 1,
        instClasses := nassocSet w.instClasses i implCls }
      (Out.mk [.newInstance i implCls deps] w (.ok ())).andThen fun _ w =>
      match validateLifecycle env implCls reg.lifetime with
      | some e => ⟨[], w, .error e⟩
      | none => ⟨[], w, .ok i⟩

/-- The parameter loop of `Container.ResolveDependenciesWithContext`. -/
def resolveDepsLoop (fuel : Nat) (env : Env) (w : World) (clsId : Nat)
    (idxs : List Nat) (chain : List Key) (scope? : Option Nat)
    (runtimeArgs : List Value) (acc : List Value) : Out (List Value) :=
  match fuel with
  | 0 => ⟨[], w, .error .outOfFuel⟩
  | fuel + 1 =>
    match idxs with
    | [] => ⟨[], w, .ok acc⟩
    | i :: rest =>
      let ci := env.classes clsId
      if i ∈ ci.runtimeParams then
        let v := match indexOf ci.runtimeParams i with
          | none => Value.undef
          | some ri => runtimeArgs.getD ri Value.undef
        resolveDepsLoop fuel env w clsId rest chain scope? runtimeArgs
          (acc ++ [v])
      else
        match depAt ci i with
        | none =>
            ⟨[], w, .error (.plainError
              "Cannot resolve parameter: no Inject decorator found and no autowired type")⟩
        | some tk =>
          match validateDeadService env clsId tk with
          | some e => ⟨[], w, .error e⟩
          | none =>
            (resolveDependencyWithContext fuel env w tk chain scope?).andThen
              fun v w =>
                resolveDepsLoop fuel env w clsId rest chain scope?
                  runtimeArgs (acc ++ [v])

/-- `Container.ResolveDependencyWithContext`. -/
def resolveDependencyWithContext (fuel : Nat) (env : Env) (w : World)
    (token : Key) (chain : List Key) (scope? : Option Nat) : Out Value :=
  match fuel with
  | 0 => ⟨[], w, .error .outOfFuel⟩
  | fuel + 1 =>
    -- ValidateToken: all embedded keys are valid tokens or constructors.
    if token.isToken ∧
        (assocFind w.container.multiRegistrations token).isSome then
      resolveMulti fuel env w token scope?
    else if token.isToken ∧
        (assocFind w.container.keyedRegistrations token).isSome then
      resolveKeyedC w token scope?
    else
      match getRegistration w.container token with
      | none => ⟨[], w, .error (.missingRegistration token (chain ++ [token]))⟩
      | some reg =>
        match reg.lifetime with
        | .singleton =>
          match assocFind w.container.singletons token with
          | some i => ⟨[], w, .ok (.inst i)⟩
          | none =>
            (createInstanceWithContext fuel env w reg chain none []).andThen
              fun i w =>
                ⟨[], { w with container := { w.container with
                    singletons := assocSet w.container.singletons token i } },
                  .ok (.inst i)⟩
        | .scoped =>
          match scope? with
          | none => ⟨[], w, .error (.lifetimeViolation token)⟩
          | some sid => scopeResolveWithContext fuel env w sid token chain
        | .factory =>
          (createInstanceWithContext fuel env w reg chain scope? []).andThen
            fun i w => ⟨[], w, .ok (.inst i)⟩

/-- `Container.ResolveMulti`. -/
def resolveMulti (fuel : Nat) (env : Env) (w : World) (token : Key)
    (scope? : Option Nat) : Out Value :=
  match fuel with
  | 0 => ⟨[], w, .error .outOfFuel⟩
  | fuel + 1 =>
    let impls := (assocFind w.container.multiRegistrations token).getD []
    (multiLoop fuel env w token impls scope? []).andThen fun ids w =>
      ⟨[], w, .ok (.listV ids)⟩

/-- The `implementations.map(...)` loop of `ResolveMulti`: each element is
built through a per-element registration record tagged `singleton` of type
`multi`. -/
def multiLoop (fuel : Nat) (env : Env) (w : World) (token : Key)
    (impls : List Nat) (scope? : Option Nat) (acc : List Nat) :
    Out (List Nat) :=
  match fuel with
  | 0 => ⟨[], w, .error .outOfFuel⟩
  | fuel + 1 =>
    match impls with
    | [] => ⟨[], w, .ok acc⟩
    | impl :: rest =>
      let reg : ServiceRegistration :=
        { token := token, implementation := some impl,
          lifetime := .singleton, rkind := .multi }
      (createInstance fuel env w reg scope? []).andThen fun i w =>
        multiLoop fuel env w token rest scope? (acc ++ [i])

/-- Modelled from the spec: `Container.CreateInstance` is the "legacy method
without context" that `ResolveMulti` and `ResolveKeyed` call. Its
declaration survives in the published type declarations
(`out/Injection/Core/ContainerErrors.d.ts`) but its body is not among the
provided source files. Per the spec (§4.4 steps 2–3 and §9) it constructs a
fresh instance with all dependencies injected using a fresh resolution
context, and never inserts into the singleton cache. -/
def createInstance (fuel : Nat) (env : Env) (w : World)
    (reg : ServiceRegistration) (scope? : Option Nat)
    (runtimeArgs : List Value) : Out Nat :=
  match fuel with
  | 0 => ⟨[], w, .error .outOfFuel⟩
  | fuel + 1 => createInstanceWithContext fuel env w reg [] scope? runtimeArgs

/-- `Scope.ResolveWithContext`. -/
def scopeResolveWithContext (fuel : Nat) (env : Env) (w : World) (sid : Nat)
    (token : Key) (chain : List Key) : Out Value :=
  match fuel with
  | 0 => ⟨[], w, .error .outOfFuel⟩
  | fuel + 1 =>
    match nassocFind w.scopes sid with
    | none => ⟨[], w, .error (.missingScope sid)⟩
    | some s =>
      if s.destroyed then ⟨[], w, .error (.destroyedScope sid)⟩
      else
        match assocFind s.externalInstances token with
        | some v => ⟨[], w, .ok (.inst v)⟩
        | none =>
          match assocFind s.scopedInstances token with
          | some v => ⟨[], w, .ok (.inst v)⟩
          | none =>
            match getRegistration w.container token with
            | none =>
              match s.parent with
              | some p => scopeResolveWithContext fuel env w p token chain
              | none =>
                  ⟨[], w, .error (.missingRegistration token
                    (chain ++ [token]))⟩
            | some reg =>
              match reg.lifetime with
              | .singleton => containerResolve fuel env w token
              | .scoped =>
                (createInstanceWithContext fuel env w reg chain (some sid)
                    []).andThen fun i w =>
                  let w := updateScope w sid (fun s =>
                    { s with scopedInstances :=
                        assocSet s.scopedInstances token i })
                  let (evs, w) := trackInstance env w sid i
                  ⟨evs, w, .ok (.inst i)⟩
              | .factory =>
                (createInstanceWithContext fuel env w reg chain (some sid)
                    []).andThen fun i w => ⟨[], w, .ok (.inst i)⟩

end

/-- `Scope.Resolve`: fresh resolution context. -/
def scopeResolve (fuel : Nat) (env : Env) (w : World) (sid : Nat)
    (token : Key) : Out Value :=
  scopeResolveWithContext fuel env w sid token []

/-- The body of the callable returned for a keyed token: look the key up in
the captured keyed map, fail with the available keys when absent, otherwise
build a fresh instance through a `factory`-tagged registration record. -/
def invokeKeyed (fuel : Nat) (env : Env) (w : World) (token : Key)
    (scope? : Option Nat) (key : String) : Out Nat :=
  match assocFind w.container.keyedRegistrations token with
  | none =>
      ⟨[], w, .error (.plainError
        ("[OjaInjection] No keyed implementation found for key: " ++ key))⟩
  | some implementations =>
    match sassocFind implementations key with
    | none =>
        let avail := implementations.map (·.1)
        ⟨[], w, .error (.keyedKeyMissing token key avail
          ("[OjaInjection] Keyed injection failed Token: " ++ env.names token
            ++ " Key: \"" ++ key ++ "\" Available keys: "
            ++ String.intercalate ", " avail))⟩
    | some impl =>
        let reg : ServiceRegistration :=
          { token := token, implementation := some impl,
            lifetime := .factory, rkind := .keyed, key := some key }
        createInstance fuel env w reg scope? []

/-! ## Scope lifecycle operations -/

/-- `Scope.ProvideRuntime`: insert into the externals and track the value
for lifecycle. The `cls` argument is the class of the value the caller hands
over. -/
def scopeProvideRuntime (env : Env) (w : World) (sid : Nat) (token : Key)
    (instId : Nat) (cls : Nat) : Out Unit :=
  match nassocFind w.scopes sid with
  | none => ⟨[], w, .error (.missingScope sid)⟩
  | some s =>
    if s.destroyed then ⟨[], w, .error (.destroyedScope sid)⟩
    else
      let w := { w with instClasses := nassocSet w.instClasses instId cls }
      let w := updateScope w sid (fun s =>
        { s with externalInstances := assocSet s.externalInstances token instId })
      let (evs, w) := trackInstance env w sid instId
      ⟨evs, w, .ok ()⟩

/-- `Scope.CreateChildScope`. -/
def scopeCreateChildScope (w : World) (sid : Nat) : Out Nat :=
  match nassocFind w.scopes sid with
  | none => ⟨[], w, .error (.missingScope sid)⟩
  | some s =>
    if s.destroyed then ⟨[], w, .error (.destroyedScope sid)⟩
    else
      let cid := w.nextScopeId
      let child : ScopeState := { parent := some sid }
      let w := { w with
        nextScopeId := cid + 1,
        scopes := nassocSet w.scopes cid child }
      let w := updateScope w sid (fun s =>
        { s with childScopes := s.childScopes ++ [cid] })
      ⟨[], w, .ok cid⟩

/-- Tick unregistration phase of `Scope.Destroy`: all three kinds are
unregistered from the global tick manager. -/
def scopeUnregisterPhase (w : World) (s : ScopeState) : List Event × World :=
  let p1 := s.tickables.foldl
    (fun (p : List Event × TickState) t =>
      (p.1 ++ [.unregTick t], tmUnregisterTickable p.2 t)) ([], w.tick)
  let p2 := s.fixedTickables.foldl
    (fun (p : List Event × TickState) t =>
      (p.1 ++ [.unregFixedTick t], tmUnregisterFixedTickable p.2 t)) ([], p1.2)
  let p3 := s.renderTickables.foldl
    (fun (p : List Event × TickState) t =>
      (p.1 ++ [.unregRenderTick t], tmUnregisterRenderTickable p.2 t))
    ([], p2.2)
  (p1.1 ++ p2.1 ++ p3.1, { w with tick := p3.2 })

/-- Destroyable phase of `Scope.Destroy`: `Destroy` is invoked on every
tracked destroyable; a throwing `Destroy` is logged (`warn`) and the loop
continues. -/
def destroyablesPhase (env : Env) (ds : List Nat) : List Event :=
  ds.flatMap fun d =>
    if env.destroyThrows d then [.destroyInvoked d, .warned]
    else [.destroyInvoked d]

mutual

/-- `Scope.Destroy`: no-op when already destroyed; otherwise unregister all
tracked tickables, destroy the children recursively, invoke `Destroy` on the
tracked destroyables (non-fatally), clear every cache and tracking list and
set the destroyed flag. `none` means the fuel ran out. -/
def scopeDestroy (fuel : Nat) (env : Env) (w : World) (sid : Nat) :
    Option (List Event × World) :=
  match fuel with
  | 0 => none
  | fuel + 1 =>
    match nassocFind w.scopes sid with
    | none => some ([], w)
    | some s =>
      if s.destroyed then some ([], w)
      else
        let (evA, w) := scopeUnregisterPhase w s
        match destroyChildren fuel env w s.childScopes with
        | none => none
        | some (evB, w) =>
          let evC := destroyablesPhase env s.destroyables
          let w := updateScope w sid (fun s =>
            { s with
              scopedInstances := [], externalInstances := [],
              childScopes := [], tickables := [], fixedTickables := [],
              renderTickables := [], destroyables := [], destroyed := true })
          some (evA ++ evB ++ evC, w)

/-- The child loop of `Scope.Destroy`. -/
def destroyChildren (fuel : Nat) (env : Env) (w : World) (cs : List Nat) :
    Option (List Event × World) :=
  match fuel with
  | 0 => none
  | fuel + 1 =>
    match cs with
    | [] => some ([], w)
    | c :: rest =>
      match scopeDestroy fuel env w c with
      | none => none
      | some (ev1, w) =>
        match destroyChildren fuel env w rest with
        | none => none
        | some (ev2, w) => some (ev1 ++ ev2, w)

end

/-- The debug snapshot assembled by `Scope.DebugServices` (timestamps
omitted: they carry monotonic clock readings). Note the source performs no
destroyed-check here. -/
structure DebugInfo where
  scopeId : Nat
  parentScopeId : Option Nat
  services : List String
  childScopes : Nat
  totalServices : Nat
deriving DecidableEq, Repr

/-- `Scope.DebugServices`. `none` only when the scope object does not exist
(a model artifact): the source version never fails, destroyed or not. -/
def scopeDebugServices (env : Env) (w : World) (sid : Nat) :
    Option DebugInfo :=
  match nassocFind w.scopes sid with
  | none => none
  | some s =>
    let services := s.scopedInstances.map (fun p => env.names p.1)
      ++ s.externalInstances.map (fun p => env.names p.1)
    some { scopeId := sid, parentScopeId := s.parent,
           services := services,
           childScopes := s.childScopes.length,
           totalServices := services.length }

/-- `Scope.StartAll`: invoke `Start` on every scoped and external instance
exposing it; a throwing `Start` is logged and the loop continues. -/
def scopeStartAll (env : Env) (w : World) (sid : Nat) : List Event :=
  match nassocFind w.scopes sid with
  | none => []
  | some s =>
    (s.scopedInstances.map (·.2) ++ s.externalInstances.map (·.2)).flatMap
      fun i =>
        match nassocFind w.instClasses i with
        | none => []
        | some cls =>
          if (env.classes cls).hasStart then
            if env.startThrows i then [.startInvoked i, .warned]
            else [.startInvoked i]
          else []

/-! ## Container.Launch -/

/-- The registration loop of `Launch`: for each token, the inner loop
resolves the token and breaks as soon as a registration with singleton
lifetime whose implementation exposes `Start` is found. -/
def launchLoop (fuel : Nat) (env : Env) (w : World)
    (entries : List (Key × List ServiceRegistration)) : Out Unit :=
  match entries with
  | [] => ⟨[], w, .ok ()⟩
  | (token, regs) :: rest =>
    match regs.find? (fun reg =>
        decide (reg.lifetime = Lifetime.singleton
          ∧ (env.classes (regClassOf reg)).hasStart = true)) with
    | none => launchLoop fuel env w rest
    | some _ =>
      (containerResolve fuel env w token).andThen fun _ w =>
        launchLoop fuel env w rest

/-- `Container.Launch`: validate, then walk the registrations in insertion
order. Note the source resolves the matching tokens but contains no call to
`Start` anywhere on this path. -/
def containerLaunch (fuel : Nat) (env : Env) (w : World) : Out Unit :=
  (containerValidate env w).andThen fun _ w =>
    launchLoop fuel env w w.container.registrations

/-! ## Specification-side helper definitions used by the theorems -/

/-- An operation on the tick manager, for quantifying over arbitrary
operation sequences. -/
inductive TickOp where
  | regT (i : Nat)
  | regF (i : Nat)
  | regR (i : Nat)
  | unregT (i : Nat)
  | unregF (i : Nat)
  | unregR (i : Nat)
  | pauseOp
  | resumeOp
  | destroyOp
deriving DecidableEq, Repr

/-- Apply one tick-manager operation. -/
def applyTickOp (env : Env) (tm : TickState) : TickOp → TickState
  | .regT i => (tmRegisterTickable tm i).2
  | .regF i => (tmRegisterFixedTickable tm i).2
  | .regR i => (tmRegisterRenderTickable env tm i).2
  | .unregT i => tmUnregisterTickable tm i
  | .unregF i => tmUnregisterFixedTickable tm i
  | .unregR i => tmUnregisterRenderTickable tm i
  | .pauseOp => tmPause tm
  | .resumeOp => tmResume tm
  | .destroyOp => tmDestroy tm

/-- Apply a sequence of tick-manager operations. -/
def applyTickOps (env : Env) (tm : TickState) (ops : List TickOp) :
    TickState :=
  ops.foldl (applyTickOp env) tm

/-- The host-clock subscription count always equals the sum of the two
connection flags. -/
def tickConnInv (tm : TickState) : Prop :=
  tm.subCount = (if tm.heartbeatConnected then 1 else 0)
    + (if tm.renderConnected then 1 else 0)

/-- The tick-unregistration events `Scope.Destroy` emits for one scope. -/
def unregEvents (s : ScopeState) : List Event :=
  s.tickables.map .unregTick ++ s.fixedTickables.map .unregFixedTick
    ++ s.renderTickables.map .unregRenderTick

/-- Expected events of a multi-resolution whose implementations have no
dependencies: per element, the construction entry and the construction,
in insertion order. -/
def multiFreeEvents (t : Key) (n : Nat) (cs : List Nat) : List Event :=
  match cs with
  | [] => []
  | c :: rest =>
      .enterConstruct t :: .newInstance n c [] :: multiFreeEvents t (n + 1) rest

/-- `len` consecutive instance identifiers starting at `n`. -/
def rangeFrom (n len : Nat) : List Nat := (List.range len).map (n + ·)

/-- Instance-class bookkeeping after allocating the classes `cs` starting at
identifier `n`. -/
def instClassesAfter (ic : List (Nat × Nat)) (n : Nat) (cs : List Nat) :
    List (Nat × Nat) :=
  match cs with
  | [] => ic
  | c :: rest => instClassesAfter (nassocSet ic n c) (n + 1) rest

/-- The list-level operation performed by `TickManager.Unregister*`:
`indexOf` followed by `unorderedRemove` — removes the first occurrence by
swapping the last element into its slot. -/
def removeFirst (l : List Nat) (a : Nat) : List Nat :=
  match indexOf l a with
  | none => l
  | some i => unorderedRemove l i

/-- The resolution engine never rewrites the registration tables, and the
validated bit can only go from `false` to `true` while resolving. -/
def presv (w w2 : World) : Prop :=
  w2.container.registrations = w.container.registrations ∧
  w2.container.multiRegistrations = w.container.multiRegistrations ∧
  w2.container.keyedRegistrations = w.container.keyedRegistrations ∧
  (w.container.validated = true → w2.container.validated = true)

/-! ## Concrete fixtures used by witnesses and counterexamples -/

/-- An environment with no classes of interest (witness fixture). -/
def plainEnv : Env := { classes := fun _ => {}, isClient := true }

/-- A paused tick dispatcher with one live subscription (witness fixture). -/
def pausedTm : TickState :=
  { tickables := [9], heartbeatConnected := true, paused := true,
    subCount := 1 }

/-- A container holding one keyed registration
`(token 0, {Sword ↦ class 7, Bow ↦ class 8})` (witness fixture). -/
def keyedW : World :=
  { container :=
    { keyedRegistrations := [(.token 0, [("Sword", 7), ("Bow", 8)])],
      validated := true } }

/-- A container holding one multi-registration
`(token 1, [class 7, class 8])` (witness fixture). -/
def multiW : World :=
  { container :=
    { multiRegistrations := [(.token 1, [7, 8])], validated := true } }

/-- Environment with two mutually dependent singleton classes `A` (0) and
`B` (1) (witness fixture for cycle detection). -/
def cycEnv : Env :=
  { classes := fun n =>
      if n = 0 then
        { dependencyTokens := [some (.ctor 1)],
          lifetimeMeta := some .singleton }
      else if n = 1 then
        { dependencyTokens := [some (.ctor 0)],
          lifetimeMeta := some .singleton }
      else {},
    names := fun k =>
      match k with
      | .ctor 0 => "A"
      | .ctor 1 => "B"
      | _ => "K" }

/-- Validated container registering `A` and `B` as singletons (witness
fixture for cycle detection). -/
def cycW : World :=
  { container :=
    { registrations :=
        [(.ctor 0, [⟨.ctor 0, some 0, .singleton, .single, none⟩]),
         (.ctor 1, [⟨.ctor 1, some 1, .singleton, .single, none⟩])],
      validated := true } }

/-- Environment where class 1 exposes `Start` and class 2 does not
(fixture for the `Launch` evaluation). -/
def launchEnv : Env :=
  { classes := fun n => if n = 1 then { hasStart := true } else {} }

/-- Unvalidated container registering singleton classes 1 (`Start`-capable)
and 2 (no `Start`), in that order (fixture for the `Launch` evaluation). -/
def launchW : World :=
  { container :=
    { registrations :=
        [(.ctor 1, [⟨.ctor 1, some 1, .singleton, .single, none⟩]),
         (.ctor 2, [⟨.ctor 2, some 2, .singleton, .single, none⟩])] } }

/-- Recognizer for `Start`-invocation events. -/
def isStartEvent : Event → Bool
  | .startInvoked _ => true
  | _ => false

/-- A world whose scope 0 has been destroyed (fixture for the
destroyed-scope behaviour). -/
def destroyedW : World := { scopes := [(0, { destroyed := true })] }

/-- Environment for the external-override scenarios: class 1 is the
dependent service `U` (scoped, depending on token 0 = `PT`), class 2 is
`Player`, class 3 is the class of the externally provided value. -/
def extEnv : Env :=
  { classes := fun n =>
      if n = 1 then
        { dependencyTokens := [some (.token 0)],
          lifetimeMeta := some .scoped }
      else {},
    names := fun k =>
      match k with
      | .token 0 => "PT"
      | _ => "K" }

/-- World where `PT` is registered with **singleton** lifetime for `Player`
(class 2) and `U` (class 1) is scoped; scope 0 is live and empty
(counterexample fixture). -/
def extSingletonW : World :=
  { container :=
    { registrations :=
        [(.token 0, [⟨.token 0, some 2, .singleton, .single, none⟩]),
         (.ctor 1, [⟨.ctor 1, some 1, .scoped, .single, none⟩])],
      validated := true },
    scopes := [(0, {})] }

/-- World where `PT` is registered with **scoped** lifetime for `Player`
(class 2) and `U` (class 1) is scoped; scope 0 is live and empty (witness
fixture for the amended claim). -/
def extScopedW : World :=
  { container :=
    { registrations :=
        [(.token 0, [⟨.token 0, some 2, .scoped, .single, none⟩]),
         (.ctor 1, [⟨.ctor 1, some 1, .scoped, .single, none⟩])],
      validated := true },
    scopes := [(0, {})] }

/-- `launchW` after resolving singleton `ctor 1` once: its instance 0 is
cached (fixture for the singleton-cache round trip). -/
def resolvedW : World :=
  { container :=
    { registrations :=
        [(.ctor 1, [⟨.ctor 1, some 1, .singleton, .single, none⟩]),
         (.ctor 2, [⟨.ctor 2, some 2, .singleton, .single, none⟩])],
      singletons := [(.ctor 1, 0)],
      validated := true },
    nextInstanceId := 1,
    instClasses := [(0, 1)] }

/-- The composite tick-manager state produced by the unregistration phase of
`Scope.Destroy`: all three tracked kinds unregistered in order. -/
def unregAll (tm : TickState) (s : ScopeState) : TickState :=
  s.renderTickables.foldl tmUnregisterRenderTickable
    (s.fixedTickables.foldl tmUnregisterFixedTickable
      (s.tickables.foldl tmUnregisterTickable tm))

/-- The scope object after the clearing phase of `Scope.Destroy`: every cache
and tracking list emptied and the destroyed flag set. -/
def clearScope (s : ScopeState) : ScopeState :=
  { s with
    scopedInstances := [], externalInstances := [],
    childScopes := [], tickables := [], fixedTickables := [],
    renderTickables := [], destroyables := [], destroyed := true }

/-- Child scope of the C5 witness: childless, tracking destroyable 5 and
tickable 3. -/
def c5C : ScopeState :=
  { parent := some 0, destroyables := [5], tickables := [3] }

/-- Parent scope of the C5 witness: one child scope (id 1), destroyable 4,
tickable 2. -/
def c5S : ScopeState :=
  { childScopes := [1], destroyables := [4], tickables := [2] }

/-- World of the C5 witness: both scopes live, both tickables registered on
the heartbeat dispatcher. -/
def c5W : World :=
  { scopes := [(0, c5S), (1, c5C)],
    tick := { tickables := [2, 3], heartbeatConnected := true,
              subCount := 1 } }

/-! # Theorems

## Generic lemmas about the sequencing and lookup helpers -/

theorem andThen_ok {α β : Type} (evs : List Event) (w : World) (a : α)
    (f : α → World → Out β) :
    (Out.mk evs w (.ok a)).andThen f =
      ⟨evs ++ (f a w).events, (f a w).world, (f a w).res⟩ := rfl

theorem andThen_error {α β : Type} (evs : List Event) (w : World)
    (e : CError) (f : α → World → Out β) :
    (Out.mk evs w (.error e)).andThen f = ⟨evs, w, .error e⟩ := rfl

theorem assocFind_set_self {β : Type} (l : List (Key × β)) (k : Key)
    (v : β) : assocFind (assocSet l k v) k = some v := by
  induction l with
  | nil => simp [assocSet, assocFind]
  | cons p rest ih =>
      by_cases h : p.1 = k
      · simp [assocSet, assocFind, h]
      · simp [assocSet, assocFind, h, ih]

theorem assocFind_set_ne {β : Type} (l : List (Key × β)) (k k2 : Key)
    (v : β) (h : k ≠ k2) :
    assocFind (assocSet l k v) k2 = assocFind l k2 := by
  induction l with
  | nil => simp [assocSet, assocFind, h]
  | cons p rest ih =>
      by_cases hp : p.1 = k
      · simp [assocSet, assocFind, hp, h]
      · simp [assocSet, assocFind, hp, ih]

theorem assocFind_set_isSome {β : Type} (l : List (Key × β)) (k k2 : Key)
    (v : β) (h : (assocFind l k2).isSome = true) :
    (assocFind (assocSet l k v) k2).isSome = true := by
  by_cases hk : k = k2
  · subst hk; simp [assocFind_set_self]
  · rw [assocFind_set_ne l k k2 v hk]; exact h

theorem nassocFind_set_self {β : Type} (l : List (Nat × β)) (k : Nat)
    (v : β) : nassocFind (nassocSet l k v) k = some v := by
  induction l with
  | nil => simp [nassocSet, nassocFind]
  | cons p rest ih =>
      by_cases h : p.1 = k
      · simp [nassocSet, nassocFind, h]
      · simp [nassocSet, nassocFind, h, ih]

theorem nassocFind_set_ne {β : Type} (l : List (Nat × β)) (k k2 : Nat)
    (v : β) (h : k ≠ k2) :
    nassocFind (nassocSet l k v) k2 = nassocFind l k2 := by
  induction l with
  | nil => simp [nassocSet, nassocFind, h]
  | cons p rest ih =>
      by_cases hp : p.1 = k
      · simp [nassocSet, nassocFind, hp, h]
      · simp [nassocSet, nassocFind, hp, ih]

/-! ## C10: `Use` is not atomic on duplicate registration -/

theorem useSingles_append (c : ContainerState)
    (l1 l2 : List ModuleRegistration) :
    useSingles c (l1 ++ l2) =
      match useSingles c l1 with
      | (c1, none) => useSingles c1 l2
      | (c1, some e) => (c1, some e) := by
  induction l1 generalizing c with
  | nil => simp [useSingles]
  | cons r rest ih =>
      simp only [List.cons_append, useSingles]
      split
      · rfl
      · exact ih _

theorem useSingles_validated (c : ContainerState)
    (l : List ModuleRegistration) :
    (useSingles c l).1.validated = c.validated := by
  induction l generalizing c with
  | nil => simp [useSingles]
  | cons r rest ih =>
      simp only [useSingles]
      split
      · rfl
      · rw [ih]; rfl

theorem useSingles_mono (c : ContainerState) (l : List ModuleRegistration)
    (k : Key) (h : (assocFind c.registrations k).isSome = true) :
    (assocFind (useSingles c l).1.registrations k).isSome = true := by
  induction l generalizing c with
  | nil => simpa [useSingles] using h
  | cons r rest ih =>
      simp only [useSingles]
      split
      · exact h
      · exact ih _ (assocFind_set_isSome _ _ _ _ h)

theorem useSingles_mem (c : ContainerState) (l : List ModuleRegistration)
    (h : (useSingles c l).2 = none) :
    ∀ r ∈ l, (assocFind (useSingles c l).1.registrations r.token).isSome
      = true := by
  induction l generalizing c with
  | nil => intro r hr; cases hr
  | cons r0 rest ih =>
      intro r hr
      by_cases hdup : (assocFind c.registrations r0.token).isSome = true
      · exfalso
        simp only [useSingles, if_pos hdup] at h
        cases h
      · simp only [useSingles, if_neg hdup] at h ⊢
        rcases List.mem_cons.mp hr with h1 | h1
        · subst h1
          exact useSingles_mono _ rest _
            (by simp [registerSingle, assocFind_set_self])
        · exact ih _ h r h1

/-- C10: `Use` is not atomic on duplicate registration: inserting a module
whose entry `dup` collides with an already-present key raises
`DuplicateRegistration`, but every single/scoped/factory registration
processed before `dup` remains inserted, and the `validated` flag is not
touched by the failed call (the `validated := false` reset is the last
statement of `Use` and is never reached). -/
theorem claim_C10_use_not_atomic (w : World)
    (pre : List ModuleRegistration) (dup : ModuleRegistration)
    (rest : List ModuleRegistration) (m : ModuleRegister)
    (hm : m.registrations = pre ++ dup :: rest)
    (hpre : (useSingles w.container pre).2 = none)
    (hdup : (assocFind (useSingles w.container pre).1.registrations
      dup.token).isSome = true) :
    containerUse w m =
      ⟨[], { w with container := (useSingles w.container pre).1 },
        .error (.duplicateRegistration dup.token)⟩ ∧
    (∀ r ∈ pre,
      (assocFind (containerUse w m).world.container.registrations
        r.token).isSome = true) ∧
    (containerUse w m).world.container.validated
      = w.container.validated := by
  have hsplit : useSingles w.container m.registrations =
      ((useSingles w.container pre).1,
        some (.duplicateRegistration dup.token)) := by
    rw [hm, useSingles_append]
    have hu1 : useSingles w.container pre
        = ((useSingles w.container pre).1, none) := by
      rcases h2 : useSingles w.container pre with ⟨c1, e1⟩
      rw [h2] at hpre
      simp only at hpre
      rw [hpre]
    rw [hu1]
    show useSingles (useSingles w.container pre).1 (dup :: rest) = _
    simp only [useSingles]
    rw [if_pos hdup]
  have huse : containerUse w m =
      ⟨[], { w with container := (useSingles w.container pre).1 },
        .error (.duplicateRegistration dup.token)⟩ := by
    simp only [containerUse, hsplit]
  refine ⟨huse, ?_, ?_⟩
  · intro r hr
    rw [huse]
    exact useSingles_mem _ _ hpre r hr
  · rw [huse]
    exact useSingles_validated _ _

/-- Witness for C10 at a concrete input: a module registering key `C5`
twice; the first insertion survives the failed call. -/
theorem claim_C10_use_not_atomic_witness :
    containerUse {}
        { registrations := [⟨.ctor 5, 5, .singleton⟩, ⟨.ctor 5, 6, .scoped⟩] } =
      ⟨[], { (({} : World)) with
          container := (useSingles ({} : World).container
            [⟨.ctor 5, 5, .singleton⟩]).1 },
        .error (.duplicateRegistration (Key.ctor 5))⟩ ∧
    (∀ r ∈ [(⟨.ctor 5, 5, .singleton⟩ : ModuleRegistration)],
      (assocFind (containerUse {}
          { registrations :=
            [⟨.ctor 5, 5, .singleton⟩, ⟨.ctor 5, 6, .scoped⟩] }
        ).world.container.registrations r.token).isSome = true) ∧
    (containerUse {}
        { registrations := [⟨.ctor 5, 5, .singleton⟩, ⟨.ctor 5, 6, .scoped⟩] }
      ).world.container.validated = ({} : World).container.validated :=
  claim_C10_use_not_atomic {} [⟨.ctor 5, 5, .singleton⟩] ⟨.ctor 5, 6, .scoped⟩
    [] _ rfl (by decide) (by decide)

/-! ## C9: the tick dispatcher holds at most two host-clock subscriptions,
and paused dispatch delivers nothing -/

theorem tickConnInv_applyOp (env : Env) (tm : TickState) (op : TickOp)
    (h : tickConnInv tm) : tickConnInv (applyTickOp env tm op) := by
  cases op with
  | regT i =>
      simp only [applyTickOp, tmRegisterTickable, tmEnsureHeartbeat,
        tickConnInv] at h ⊢
      split_ifs at h ⊢ <;> simp_all
  | regF i =>
      simp only [applyTickOp, tmRegisterFixedTickable, tmEnsureHeartbeat,
        tickConnInv] at h ⊢
      split_ifs at h ⊢ <;> simp_all
  | regR i =>
      simp only [applyTickOp, tmRegisterRenderTickable, tmEnsureRender,
        tickConnInv] at h ⊢
      split_ifs at h ⊢ <;> simp_all
  | unregT i =>
      simp only [applyTickOp, tmUnregisterTickable]
      cases h2 : indexOf tm.tickables i <;> simpa [tickConnInv] using h
  | unregF i =>
      simp only [applyTickOp, tmUnregisterFixedTickable]
      cases h2 : indexOf tm.fixedTickables i <;> simpa [tickConnInv] using h
  | unregR i =>
      simp only [applyTickOp, tmUnregisterRenderTickable]
      cases h2 : indexOf tm.renderTickables i <;> simpa [tickConnInv] using h
  | pauseOp => simpa [applyTickOp, tmPause, tickConnInv] using h
  | resumeOp => simpa [applyTickOp, tmResume, tickConnInv] using h
  | destroyOp =>
      simp only [applyTickOp, tmDestroy, tickConnInv] at h ⊢
      split_ifs at h ⊢ <;> simp_all

theorem tickConnInv_applyTickOps (env : Env) (ops : List TickOp)
    (tm : TickState) (h : tickConnInv tm) :
    tickConnInv (applyTickOps env tm ops) := by
  induction ops generalizing tm with
  | nil => exact h
  | cons op rest ih =>
      exact ih _ (tickConnInv_applyOp env tm op h)

/-- C9: starting from the fresh tick dispatcher, after any sequence of
register/unregister/pause/resume/destroy operations the number of live
host-clock subscriptions is 0, 1 or 2 (one logic and optionally one render
subscription), regardless of how many tickables are registered; and while
the paused flag is set both dispatch callbacks deliver nothing although
pausing leaves the subscriptions untouched. -/
theorem claim_C9_tick_subscriptions (env : Env) (ops : List TickOp)
    (tm : TickState) (hp : tm.paused = true) :
    (applyTickOps env {} ops).subCount ≤ 2 ∧
    tmHeartbeatStep env tm = [] ∧
    tmRenderStep env tm = [] ∧
    (tmPause tm).heartbeatConnected = tm.heartbeatConnected ∧
    (tmPause tm).renderConnected = tm.renderConnected ∧
    (tmPause tm).subCount = tm.subCount := by
  refine ⟨?_, ?_, ?_, rfl, rfl, rfl⟩
  · have h := tickConnInv_applyTickOps env ops {} (by simp [tickConnInv])
    unfold tickConnInv at h
    rw [h]
    split_ifs <;> omega
  · simp [tmHeartbeatStep, hp]
  · simp [tmRenderStep, hp]

/-- Witness for C9: a burst of registrations keeps the subscription count at
2, and a paused dispatcher with a live subscription delivers nothing. -/
theorem claim_C9_tick_subscriptions_witness :
    (applyTickOps plainEnv {}
        [.regT 1, .regT 2, .regT 3, .regF 4, .regR 5, .unregT 1]).subCount ≤ 2 ∧
    tmHeartbeatStep plainEnv pausedTm = [] ∧
    tmRenderStep plainEnv pausedTm = [] ∧
    (tmPause pausedTm).heartbeatConnected = pausedTm.heartbeatConnected ∧
    (tmPause pausedTm).renderConnected = pausedTm.renderConnected ∧
    (tmPause pausedTm).subCount = pausedTm.subCount :=
  claim_C9_tick_subscriptions plainEnv
    [.regT 1, .regT 2, .regT 3, .regF 4, .regR 5, .unregT 1]
    pausedTm rfl

/-! ## Construction of dependency-free classes -/

theorem createInstanceWithContext_free (env : Env) (w : World)
    (reg : ServiceRegistration) (scope? : Option Nat) (fuel : Nat)
    (h0 : getMaxLength (env.classes (regClassOf reg)) = 0)
    (hW : validateLifecycle env (regClassOf reg) reg.lifetime = none) :
    createInstanceWithContext (fuel + 2) env w reg [] scope? [] =
      ⟨[.enterConstruct reg.token,
        .newInstance w.nextInstanceId (regClassOf reg) []],
        { w with
          nextInstanceId := w.nextInstanceId + 1,
          instClasses :=
            nassocSet w.instClasses w.nextInstanceId (regClassOf reg) },
        .ok w.nextInstanceId⟩ := by
  simp only [createInstanceWithContext, h0, List.range_zero,
    List.not_mem_nil, if_false, resolveDepsLoop, andThen_ok, hW,
    List.nil_append, List.append_nil]
  rfl

theorem createInstance_free (env : Env) (w : World)
    (reg : ServiceRegistration) (scope? : Option Nat) (fuel : Nat)
    (h0 : getMaxLength (env.classes (regClassOf reg)) = 0)
    (hW : validateLifecycle env (regClassOf reg) reg.lifetime = none) :
    createInstance (fuel + 3) env w reg scope? [] =
      ⟨[.enterConstruct reg.token,
        .newInstance w.nextInstanceId (regClassOf reg) []],
        { w with
          nextInstanceId := w.nextInstanceId + 1,
          instClasses :=
            nassocSet w.instClasses w.nextInstanceId (regClassOf reg) },
        .ok w.nextInstanceId⟩ := by
  show createInstanceWithContext (fuel + 2) env w reg [] scope? [] = _
  exact createInstanceWithContext_free env w reg scope? fuel h0 hW

/-! ## C8: keyed registrations resolve to a callable with factory semantics
and descriptive unknown-key errors -/

/-- C8: resolving a keyed token returns a callable; invoking the callable
with a registered key constructs a fresh instance each time (two invocations
return two distinct instances, nothing is cached between them), and invoking
it with an unregistered key throws an error carrying — and rendering — the
list of available keys. Stated for dependency-free implementations. -/
theorem claim_C8_keyed_factory (fuel : Nat) (env : Env) (w : World)
    (t : Key) (m : List (String × Nat)) (k k2 : String) (impl : Nat)
    (sc : Option Nat)
    (htok : t.isToken = true)
    (hk : assocFind w.container.keyedRegistrations t = some m)
    (hval : w.container.validated = true)
    (himplk : sassocFind m k = some impl)
    (h0 : getMaxLength (env.classes impl) = 0)
    (hwarm : (env.classes impl).hasWarmup = false)
    (hmiss : sassocFind m k2 = none) :
    containerResolve (fuel + 1) env w t = ⟨[], w, .ok (.factoryV t none)⟩ ∧
    (invokeKeyed (fuel + 3) env w t sc k).res = .ok w.nextInstanceId ∧
    (invokeKeyed (fuel + 3) env
        (invokeKeyed (fuel + 3) env w t sc k).world t sc k).res
      = .ok (w.nextInstanceId + 1) ∧
    w.nextInstanceId ≠ w.nextInstanceId + 1 ∧
    invokeKeyed (fuel + 3) env w t sc k2 =
      ⟨[], w, .error (.keyedKeyMissing t k2 (m.map Prod.fst)
        ("[OjaInjection] Keyed injection failed Token: " ++ env.names t
          ++ " Key: \"" ++ k2 ++ "\" Available keys: "
          ++ String.intercalate ", " (m.map Prod.fst)))⟩ := by
  have hreg : regClassOf
      { token := t, implementation := some impl,
        lifetime := .factory, rkind := .keyed, key := some k } = impl := rfl
  have hW : validateLifecycle env impl .factory = none := by
    simp [validateLifecycle, hwarm]
  have hinv1 : invokeKeyed (fuel + 3) env w t sc k =
      ⟨[.enterConstruct t, .newInstance w.nextInstanceId impl []],
        { w with
          nextInstanceId := w.nextInstanceId + 1,
          instClasses := nassocSet w.instClasses w.nextInstanceId impl },
        .ok w.nextInstanceId⟩ := by
    simp only [invokeKeyed, hk, himplk]
    exact createInstance_free env w _ sc fuel h0 hW
  have hinv2 : invokeKeyed (fuel + 3) env
      ({ w with
        nextInstanceId := w.nextInstanceId + 1,
        instClasses := nassocSet w.instClasses w.nextInstanceId impl }) t sc k
      = ⟨[.enterConstruct t, .newInstance (w.nextInstanceId + 1) impl []],
        { w with
          nextInstanceId := w.nextInstanceId + 2,
          instClasses := nassocSet
            (nassocSet w.instClasses w.nextInstanceId impl)
            (w.nextInstanceId + 1) impl },
        .ok (w.nextInstanceId + 1)⟩ := by
    simp only [invokeKeyed, hk, himplk]
    exact createInstance_free env _ _ sc fuel h0 hW
  refine ⟨?_, ?_, ?_, by omega, ?_⟩
  · simp only [containerResolve, containerValidate, hval, if_true,
      andThen_ok, resolveKeyedC]
    rw [if_pos ⟨htok, by simp [hk]⟩]
    rfl
  · rw [hinv1]
  · rw [hinv1]
    simp only
    rw [hinv2]
  · simp only [invokeKeyed, hk, hmiss]

/-- Witness for C8 at the spec's own scenario: `{Sword, Bow}` keyed under
token 0; `f "Sword"` twice yields instances 0 and 1; `f "Axe"` fails listing
`Sword, Bow`. -/
theorem claim_C8_keyed_factory_witness :
    containerResolve (0 + 1) plainEnv keyedW (.token 0) =
      ⟨[], keyedW, .ok (.factoryV (.token 0) none)⟩ ∧
    (invokeKeyed (0 + 3) plainEnv keyedW (.token 0) none "Sword").res
      = .ok keyedW.nextInstanceId ∧
    (invokeKeyed (0 + 3) plainEnv
        (invokeKeyed (0 + 3) plainEnv keyedW (.token 0) none "Sword").world
        (.token 0) none "Sword").res = .ok (keyedW.nextInstanceId + 1) ∧
    keyedW.nextInstanceId ≠ keyedW.nextInstanceId + 1 ∧
    invokeKeyed (0 + 3) plainEnv keyedW (.token 0) none "Axe" =
      ⟨[], keyedW, .error (.keyedKeyMissing (.token 0) "Axe"
        ([("Sword", 7), ("Bow", 8)].map Prod.fst)
        ("[OjaInjection] Keyed injection failed Token: "
          ++ plainEnv.names (.token 0) ++ " Key: \"" ++ "Axe"
          ++ "\" Available keys: "
          ++ String.intercalate ", "
            ([("Sword", 7), ("Bow", 8)].map Prod.fst)))⟩ :=
  claim_C8_keyed_factory 0 plainEnv keyedW (.token 0)
    [("Sword", 7), ("Bow", 8)] "Sword" "Axe" 7 none
    (by decide) (by decide) (by decide) (by decide) (by decide) (by decide)
    (by decide)

/-! ## C2: multi-registration resolution -/

theorem rangeFrom_succ (n len : Nat) :
    rangeFrom n (len + 1) = n :: rangeFrom (n + 1) len := by
  simp only [rangeFrom, List.range_succ_eq_map, List.map_cons, Nat.add_zero,
    List.map_map, List.cons.injEq, true_and]
  apply List.map_congr_left
  intro a _
  simp [Function.comp]
  omega

theorem mem_rangeFrom (x n len : Nat) :
    x ∈ rangeFrom n len ↔ n ≤ x ∧ x < n + len := by
  simp only [rangeFrom, List.mem_map, List.mem_range]
  constructor
  · rintro ⟨a, ha, rfl⟩; omega
  · rintro ⟨h1, h2⟩; exact ⟨x - n, by omega, by omega⟩

theorem rangeFrom_nodup (n len : Nat) : (rangeFrom n len).Nodup :=
  List.Nodup.map (fun a b h => by omega) (List.nodup_range len)

theorem instClassesAfter_find_lt (cs : List Nat) :
    ∀ (ic : List (Nat × Nat)) (m k : Nat), k < m →
      nassocFind (instClassesAfter ic m cs) k = nassocFind ic k := by
  induction cs with
  | nil => intro ic m k _; rfl
  | cons c rest ih =>
      intro ic m k hk
      simp only [instClassesAfter]
      rw [ih _ (m + 1) k (by omega)]
      exact nassocFind_set_ne _ _ _ _ (by omega)

theorem instClassesAfter_find (cs : List Nat) :
    ∀ (ic : List (Nat × Nat)) (n i : Nat) (h : i < cs.length),
      nassocFind (instClassesAfter ic n cs) (n + i)
        = some (cs.get ⟨i, h⟩) := by
  induction cs with
  | nil => intro ic n i h; cases h
  | cons c rest ih =>
      intro ic n i h
      cases i with
      | zero =>
          simp only [instClassesAfter, Nat.add_zero]
          rw [instClassesAfter_find_lt rest _ (n + 1) n (by omega)]
          simp [nassocFind_set_self]
      | succ j =>
          simp only [instClassesAfter]
          have := ih (nassocSet ic n c) (n + 1) j
            (by simpa using Nat.lt_of_succ_lt_succ h)
          rw [show n + (j + 1) = (n + 1) + j by omega]
          rw [this]
          rfl

theorem multiLoop_nil (fuel : Nat) (env : Env) (w : World) (t : Key)
    (sc : Option Nat) (acc : List Nat) :
    multiLoop (fuel + 1) env w t [] sc acc = ⟨[], w, .ok acc⟩ := rfl

theorem multiLoop_cons (fuel : Nat) (env : Env) (w : World) (t : Key)
    (c : Nat) (rest : List Nat) (sc : Option Nat) (acc : List Nat) :
    multiLoop (fuel + 1) env w t (c :: rest) sc acc =
      (createInstance fuel env w
        { token := t, implementation := some c,
          lifetime := .singleton, rkind := .multi } sc []).andThen
        fun i w2 => multiLoop fuel env w2 t rest sc (acc ++ [i]) := rfl

theorem multiLoop_free (env : Env) (t : Key) (sc : Option Nat) :
    ∀ (cs : List Nat) (fuel : Nat) (w : World) (acc : List Nat),
    (∀ c ∈ cs, getMaxLength (env.classes c) = 0) →
    multiLoop (fuel + cs.length + 3) env w t cs sc acc =
      ⟨multiFreeEvents t w.nextInstanceId cs,
        { w with
          nextInstanceId := w.nextInstanceId + cs.length,
          instClasses := instClassesAfter w.instClasses w.nextInstanceId cs },
        .ok (acc ++ rangeFrom w.nextInstanceId cs.length)⟩ := by
  intro cs
  induction cs with
  | nil =>
      intro fuel w acc _
      rw [show fuel + [].length + 3 = (fuel + [].length + 2) + 1 by omega,
        multiLoop_nil]
      simp [multiFreeEvents, rangeFrom, instClassesAfter]
  | cons c rest ih =>
      intro fuel w acc h0
      have hF : fuel + (c :: rest).length + 3 = (fuel + rest.length + 3) + 1 := by
        simp [List.length_cons]; omega
      rw [hF, multiLoop_cons]
      have hCI := createInstance_free env w
        { token := t, implementation := some c,
          lifetime := .singleton, rkind := .multi } sc (fuel + rest.length)
        (h0 c (List.mem_cons_self c rest))
        (by simp [validateLifecycle])
      simp only [hCI, andThen_ok]
      rw [ih fuel _ (acc ++ [w.nextInstanceId])
          (fun x hx => h0 x (List.mem_cons_of_mem c hx))]
      simp only [Out.mk.injEq, World.mk.injEq, multiFreeEvents,
        instClassesAfter, List.length_cons, rangeFrom_succ, regClassOf,
        Option.getD_some, List.cons_append, List.nil_append,
        List.append_assoc, List.singleton_append, true_and, and_true]
      omega

theorem resolveMulti_eq (fuel : Nat) (env : Env) (w : World) (t : Key)
    (sc : Option Nat) :
    resolveMulti (fuel + 1) env w t sc =
      (multiLoop fuel env w t
        ((assocFind w.container.multiRegistrations t).getD []) sc
        []).andThen fun ids w2 => ⟨[], w2, .ok (.listV ids)⟩ := rfl

theorem resolveDependencyWithContext_multi (fuel : Nat) (env : Env)
    (w : World) (token : Key) (chain : List Key) (sc : Option Nat)
    (htok : token.isToken = true)
    (hm : (assocFind w.container.multiRegistrations token).isSome = true) :
    resolveDependencyWithContext (fuel + 1) env w token chain sc =
      resolveMulti fuel env w token sc := by
  show (if token.isToken ∧
      (assocFind w.container.multiRegistrations token).isSome then
        resolveMulti fuel env w token sc
      else _) = _
  rw [if_pos ⟨htok, hm⟩]

/-- C2: resolving a multi-registered token (the multi branch of the
dependency-resolution algorithm) returns the list of instances in the
insertion order of the registered implementations; every element is
constructed freshly on each resolve call and nothing is inserted into the
container's singleton cache (the container state is untouched), so two
resolves of the same token yield pairwise distinct instances. Stated for
dependency-free member implementations. -/
theorem claim_C2_multi_fresh (fuel : Nat) (env : Env) (w : World) (t : Key)
    (cs : List Nat) (chain : List Key) (sc : Option Nat)
    (htok : t.isToken = true)
    (hm : assocFind w.container.multiRegistrations t = some cs)
    (h0 : ∀ c ∈ cs, getMaxLength (env.classes c) = 0) :
    resolveDependencyWithContext (fuel + cs.length + 5) env w t chain sc =
      ⟨multiFreeEvents t w.nextInstanceId cs,
        { w with
          nextInstanceId := w.nextInstanceId + cs.length,
          instClasses := instClassesAfter w.instClasses w.nextInstanceId cs },
        .ok (.listV (rangeFrom w.nextInstanceId cs.length))⟩ ∧
    (∀ i (h : i < cs.length),
      nassocFind (instClassesAfter w.instClasses w.nextInstanceId cs)
        (w.nextInstanceId + i) = some (cs.get ⟨i, h⟩)) ∧
    ({ w with
        nextInstanceId := w.nextInstanceId + cs.length,
        instClasses := instClassesAfter w.instClasses w.nextInstanceId cs
      } : World).container = w.container ∧
    (resolveDependencyWithContext (fuel + cs.length + 5) env
      { w with
        nextInstanceId := w.nextInstanceId + cs.length,
        instClasses := instClassesAfter w.instClasses w.nextInstanceId cs }
      t chain sc).res
      = .ok (.listV (rangeFrom (w.nextInstanceId + cs.length) cs.length)) ∧
    (rangeFrom w.nextInstanceId cs.length).Nodup ∧
    (∀ x ∈ rangeFrom w.nextInstanceId cs.length,
      x ∉ rangeFrom (w.nextInstanceId + cs.length) cs.length) := by
  have hstep : ∀ w2 : World,
      w2.container.multiRegistrations = w.container.multiRegistrations →
      resolveDependencyWithContext (fuel + cs.length + 5) env w2 t chain sc =
        ⟨multiFreeEvents t w2.nextInstanceId cs,
          { w2 with
            nextInstanceId := w2.nextInstanceId + cs.length,
            instClasses :=
              instClassesAfter w2.instClasses w2.nextInstanceId cs },
          .ok (.listV (rangeFrom w2.nextInstanceId cs.length))⟩ := by
    intro w2 hw2
    rw [show fuel + cs.length + 5 = (fuel + cs.length + 4) + 1 by omega,
      resolveDependencyWithContext_multi _ _ _ _ _ _ htok
        (by rw [hw2, hm]; rfl),
      show fuel + cs.length + 4 = (fuel + cs.length + 3) + 1 by omega,
      resolveMulti_eq]
    rw [hw2, hm]
    simp only [Option.getD_some]
    rw [multiLoop_free env t sc cs fuel w2 [] h0]
    simp [Out.andThen]
  refine ⟨hstep w rfl, instClassesAfter_find cs _ _, rfl, ?_, ?_, ?_⟩
  · rw [hstep
      { w with
        nextInstanceId := w.nextInstanceId + cs.length,
        instClasses := instClassesAfter w.instClasses w.nextInstanceId cs }
      rfl]
  · exact rangeFrom_nodup _ _
  · intro x hx hx2
    rw [mem_rangeFrom] at hx hx2
    omega

/-- Witness for C2: token 1 with members `[class 7, class 8]`; a resolve
yields instances `[0, 1]` and the container is untouched. -/
theorem claim_C2_multi_fresh_witness :
    (Key.token 1).isToken = true ∧
    assocFind multiW.container.multiRegistrations (.token 1) = some [7, 8] ∧
    resolveDependencyWithContext (0 + [7, 8].length + 5) plainEnv multiW
        (.token 1) [] none =
      ⟨multiFreeEvents (.token 1) multiW.nextInstanceId [7, 8],
        { multiW with
          nextInstanceId := multiW.nextInstanceId + [7, 8].length,
          instClasses := instClassesAfter multiW.instClasses
            multiW.nextInstanceId [7, 8] },
        .ok (.listV (rangeFrom multiW.nextInstanceId [7, 8].length))⟩ := by
  refine ⟨by decide, by decide, ?_⟩
  exact (claim_C2_multi_fresh 0 plainEnv multiW (.token 1) [7, 8] [] none
    (by decide) (by decide) (by decide)).1

/-! ## One-step unfolding lemmas for the resolution engine -/

theorem containerResolve_singleton (fuel : Nat) (env : Env) (w : World)
    (token : Key) (reg : ServiceRegistration)
    (hval : w.container.validated = true)
    (htok : token.isToken = false)
    (hsing : assocFind w.container.singletons token = none)
    (hreg : getRegistration w.container token = some reg)
    (hlt : reg.lifetime = .singleton) :
    containerResolve (fuel + 1) env w token =
      (createInstanceWithContext fuel env w reg [] none []).andThen
        fun i w2 =>
          ⟨[], { w2 with container := { w2.container with
              singletons := assocSet w2.container.singletons token i } },
            .ok (.inst i)⟩ := by
  simp only [containerResolve, containerValidate, hval, if_true, andThen_ok,
    htok, Bool.false_eq_true, false_and, if_false, hsing, hreg, hlt]
  simp [Out.andThen]

theorem createInstanceWithContext_circ (fuel : Nat) (env : Env) (w : World)
    (reg : ServiceRegistration) (chain : List Key) (sc : Option Nat)
    (ra : List Value) (h : reg.token ∈ chain) :
    createInstanceWithContext (fuel + 1) env w reg chain sc ra =
      ⟨[], w, .error (.circularDependency reg.token (chain ++ [reg.token])
        (formatChain env (chain ++ [reg.token])))⟩ := by
  simp only [createInstanceWithContext, if_pos h]

theorem createInstanceWithContext_step (fuel : Nat) (env : Env) (w : World)
    (reg : ServiceRegistration) (chain : List Key) (sc : Option Nat)
    (ra : List Value) (h : reg.token ∉ chain) :
    createInstanceWithContext (fuel + 1) env w reg chain sc ra =
      (Out.mk [.enterConstruct reg.token] w (.ok ())).andThen fun _ w2 =>
        (resolveDepsLoop fuel env w2 (regClassOf reg)
            (List.range (getMaxLength (env.classes (regClassOf reg))))
            (chain ++ [reg.token]) sc ra []).andThen fun deps w3 =>
          (Out.mk [.newInstance w3.nextInstanceId (regClassOf reg) deps]
              { w3 with
                nextInstanceId := w3.nextInstanceId + 1,
                instClasses := nassocSet w3.instClasses w3.nextInstanceId
                  (regClassOf reg) }
              (.ok ())).andThen fun _ w4 =>
            match validateLifecycle env (regClassOf reg) reg.lifetime with
            | some e => ⟨[], w4, .error e⟩
            | none => ⟨[], w4, .ok w3.nextInstanceId⟩ := by
  simp only [createInstanceWithContext, if_neg h]

theorem resolveDepsLoop_dep (fuel : Nat) (env : Env) (w : World)
    (cls i : Nat) (rest : List Nat) (chain : List Key) (sc : Option Nat)
    (ra acc : List Value) (tk : Key)
    (hrt : (env.classes cls).runtimeParams = [])
    (hdep : depAt (env.classes cls) i = some tk)
    (hdead : validateDeadService env cls tk = none) :
    resolveDepsLoop (fuel + 1) env w cls (i :: rest) chain sc ra acc =
      (resolveDependencyWithContext fuel env w tk chain sc).andThen
        fun v w2 =>
          resolveDepsLoop fuel env w2 cls rest chain sc ra (acc ++ [v]) := by
  simp only [resolveDepsLoop, hrt, List.not_mem_nil, if_false, hdep, hdead]

theorem rdwc_singleton (fuel : Nat) (env : Env) (w : World) (token : Key)
    (chain : List Key) (sc : Option Nat) (reg : ServiceRegistration)
    (htok : token.isToken = false)
    (hsing : assocFind w.container.singletons token = none)
    (hreg : getRegistration w.container token = some reg)
    (hlt : reg.lifetime = .singleton) :
    resolveDependencyWithContext (fuel + 1) env w token chain sc =
      (createInstanceWithContext fuel env w reg chain none []).andThen
        fun i w2 =>
          ⟨[], { w2 with container := { w2.container with
              singletons := assocSet w2.container.singletons token i } },
            .ok (.inst i)⟩ := by
  simp only [resolveDependencyWithContext, htok, Bool.false_eq_true,
    false_and, if_false, hreg, hlt, hsing]

/-! ## C3: a two-cycle is detected with chain `[A, B, A]` before any second
construction entry -/

/-- C3: when class `A`'s dependency metadata names `B` and `B`'s names `A`
(both registered as singletons), resolving `A` fails with
`CircularDependency` whose resolution chain is exactly `[A, B, A]`,
rendered by `FormatChain` (the arrow-glyph join of the key names); the
construction-entry trace is `[A, B]`, so detection fires before a second
construction of any key is entered. -/
theorem claim_C3_cycle_detection (fuel : Nat) (env : Env) (w : World)
    (a b : Nat) (hab : a ≠ b)
    (henvA : env.classes a =
      { dependencyTokens := [some (.ctor b)], lifetimeMeta := some .singleton })
    (henvB : env.classes b =
      { dependencyTokens := [some (.ctor a)], lifetimeMeta := some .singleton })
    (hval : w.container.validated = true)
    (hrA : getRegistration w.container (.ctor a) =
      some ⟨.ctor a, some a, .singleton, .single, none⟩)
    (hrB : getRegistration w.container (.ctor b) =
      some ⟨.ctor b, some b, .singleton, .single, none⟩)
    (hsA : assocFind w.container.singletons (.ctor a) = none)
    (hsB : assocFind w.container.singletons (.ctor b) = none) :
    containerResolve (fuel + 8) env w (.ctor a) =
      ⟨[.enterConstruct (.ctor a), .enterConstruct (.ctor b)], w,
        .error (.circularDependency (.ctor a)
          [.ctor a, .ctor b, .ctor a]
          (formatChain env [.ctor a, .ctor b, .ctor a]))⟩ ∧
    ([Event.enterConstruct (.ctor a),
      Event.enterConstruct (.ctor b)].count (.enterConstruct (.ctor a)))
      = 1 := by
  have hmaxA : getMaxLength (env.classes a) = 1 := by
    rw [henvA]; rfl
  have hmaxB : getMaxLength (env.classes b) = 1 := by
    rw [henvB]; rfl
  have hdepA : depAt (env.classes a) 0 = some (.ctor b) := by
    rw [henvA]; rfl
  have hdepB : depAt (env.classes b) 0 = some (.ctor a) := by
    rw [henvB]; rfl
  have hrtA : (env.classes a).runtimeParams = [] := by rw [henvA]
  have hrtB : (env.classes b).runtimeParams = [] := by rw [henvB]
  have hdeadA : validateDeadService env a (.ctor b) = none := by
    simp [validateDeadService, henvA]
  have hdeadB : validateDeadService env b (.ctor a) = none := by
    simp [validateDeadService, henvB]
  refine ⟨?_, by simp [List.count_cons, hab, Ne.symm hab]⟩
  have hcirc : CError.circularDependency (Key.ctor a)
      [.ctor a, .ctor b, .ctor a]
      (formatChain env [.ctor a, .ctor b, .ctor a]) =
      .circularDependency (.ctor a) ([Key.ctor a, .ctor b] ++ [.ctor a])
        (formatChain env ([Key.ctor a, .ctor b] ++ [.ctor a])) := rfl
  -- innermost: the second entry of A is rejected against the chain [A, B]
  have e3 : createInstanceWithContext (fuel + 1) env w
      ⟨.ctor a, some a, .singleton, .single, none⟩
      [.ctor a, .ctor b] none [] =
      ⟨[], w, .error (.circularDependency (.ctor a)
        [.ctor a, .ctor b, .ctor a]
        (formatChain env [.ctor a, .ctor b, .ctor a]))⟩ := by
    rw [createInstanceWithContext_circ fuel env w
      ⟨.ctor a, some a, .singleton, .single, none⟩
      [.ctor a, .ctor b] none [] (by simp)]
    rfl
  have d2 : resolveDependencyWithContext (fuel + 2) env w (.ctor a)
      [.ctor a, .ctor b] none =
      ⟨[], w, .error (.circularDependency (.ctor a)
        [.ctor a, .ctor b, .ctor a]
        (formatChain env [.ctor a, .ctor b, .ctor a]))⟩ := by
    rw [show fuel + 2 = (fuel + 1) + 1 by omega,
      rdwc_singleton (fuel + 1) env w (.ctor a) [.ctor a, .ctor b] none
        ⟨.ctor a, some a, .singleton, .single, none⟩ rfl hsA hrA rfl,
      e3, andThen_error]
  have l2 : resolveDepsLoop (fuel + 3) env w b [0] [.ctor a, .ctor b]
      none [] [] =
      ⟨[], w, .error (.circularDependency (.ctor a)
        [.ctor a, .ctor b, .ctor a]
        (formatChain env [.ctor a, .ctor b, .ctor a]))⟩ := by
    rw [show fuel + 3 = (fuel + 2) + 1 by omega,
      resolveDepsLoop_dep (fuel + 2) env w b 0 [] [.ctor a, .ctor b] none
        [] [] (.ctor a) hrtB hdepB hdeadB,
      d2, andThen_error]
  have c2 : createInstanceWithContext (fuel + 4) env w
      ⟨.ctor b, some b, .singleton, .single, none⟩ [.ctor a] none [] =
      ⟨[.enterConstruct (.ctor b)], w,
        .error (.circularDependency (.ctor a)
          [.ctor a, .ctor b, .ctor a]
          (formatChain env [.ctor a, .ctor b, .ctor a]))⟩ := by
    rw [show fuel + 4 = (fuel + 3) + 1 by omega,
      createInstanceWithContext_step (fuel + 3) env w
        ⟨.ctor b, some b, .singleton, .single, none⟩ [.ctor a] none []
        (by simp [hab, Ne.symm hab])]
    simp only [andThen_ok]
    rw [show regClassOf ⟨.ctor b, some b, .singleton, .single, none⟩ = b
        from rfl,
      hmaxB, show List.range 1 = [0] from rfl,
      show ([Key.ctor a] ++
        [(⟨.ctor b, some b, .singleton, .single, none⟩ :
          ServiceRegistration).token]) = [Key.ctor a, Key.ctor b] from rfl,
      l2, andThen_error]
    rfl
  have d1 : resolveDependencyWithContext (fuel + 5) env w (.ctor b)
      [.ctor a] none =
      ⟨[.enterConstruct (.ctor b)], w,
        .error (.circularDependency (.ctor a)
          [.ctor a, .ctor b, .ctor a]
          (formatChain env [.ctor a, .ctor b, .ctor a]))⟩ := by
    rw [show fuel + 5 = (fuel + 4) + 1 by omega,
      rdwc_singleton (fuel + 4) env w (.ctor b) [.ctor a] none
        ⟨.ctor b, some b, .singleton, .single, none⟩ rfl hsB hrB rfl,
      c2, andThen_error]
  have l1 : resolveDepsLoop (fuel + 6) env w a [0] [.ctor a] none [] [] =
      ⟨[.enterConstruct (.ctor b)], w,
        .error (.circularDependency (.ctor a)
          [.ctor a, .ctor b, .ctor a]
          (formatChain env [.ctor a, .ctor b, .ctor a]))⟩ := by
    rw [show fuel + 6 = (fuel + 5) + 1 by omega,
      resolveDepsLoop_dep (fuel + 5) env w a 0 [] [.ctor a] none [] []
        (.ctor b) hrtA hdepA hdeadA,
      d1, andThen_error]
  have c1 : createInstanceWithContext (fuel + 7) env w
      ⟨.ctor a, some a, .singleton, .single, none⟩ [] none [] =
      ⟨[.enterConstruct (.ctor a), .enterConstruct (.ctor b)], w,
        .error (.circularDependency (.ctor a)
          [.ctor a, .ctor b, .ctor a]
          (formatChain env [.ctor a, .ctor b, .ctor a]))⟩ := by
    rw [show fuel + 7 = (fuel + 6) + 1 by omega,
      createInstanceWithContext_step (fuel + 6) env w
        ⟨.ctor a, some a, .singleton, .single, none⟩ [] none []
        (by simp)]
    simp only [andThen_ok]
    rw [show regClassOf ⟨.ctor a, some a, .singleton, .single, none⟩ = a
        from rfl,
      hmaxA, show List.range 1 = [0] from rfl,
      show (([] : List Key) ++
        [(⟨.ctor a, some a, .singleton, .single, none⟩ :
          ServiceRegistration).token]) = [Key.ctor a] from rfl,
      l1, andThen_error]
    rfl
  rw [show fuel + 8 = (fuel + 7) + 1 by omega,
    containerResolve_singleton (fuel + 7) env w (.ctor a)
      ⟨.ctor a, some a, .singleton, .single, none⟩ hval rfl hsA hrA rfl,
    c1, andThen_error]

/-- Witness for C3: classes `A`/`B` (0/1), chain `[A, B, A]`, rendered
`"A → B → A"`. -/
theorem claim_C3_cycle_detection_witness :
    (containerResolve (0 + 8) cycEnv cycW (.ctor 0) =
      ⟨[.enterConstruct (.ctor 0), .enterConstruct (.ctor 1)], cycW,
        .error (.circularDependency (.ctor 0)
          [.ctor 0, .ctor 1, .ctor 0]
          (formatChain cycEnv [.ctor 0, .ctor 1, .ctor 0]))⟩ ∧
    ([Event.enterConstruct (.ctor 0),
      Event.enterConstruct (.ctor 1)].count (.enterConstruct (.ctor 0)))
      = 1) ∧
    formatChain cycEnv [.ctor 0, .ctor 1, .ctor 0] = "A → B → A" :=
  ⟨claim_C3_cycle_detection 0 cycEnv cycW 0 1 (by decide) rfl rfl rfl
    (by decide) (by decide) rfl rfl, by decide⟩

/-! ## C1: what `Launch` actually does (evaluation at the failing input)

The code's own documentation (`Launch`'s doc comment: "instantiate and
start all singleton services that implement the IStartable interface",
"triggering their Start() methods"; README: `Start` is "called after
construction (for singletons after container.Launch())") and the spec agree
that `Launch` invokes `Start`. The source `Launch` only calls
`this.Resolve(token)` for the matching tokens and never invokes `Start` on
the resolved instances — no code path of `Container.Resolve` or
`CreateInstanceWithContext` calls `Start`. -/

/-- C1 (code-bug evaluation at the failing input): on a container
registering the `Start`-capable singleton class 1 and then the `Start`-less
class 2, `Launch` runs validation, resolves (constructs) class 1 in
registration order — class 2, having no `Start`, is not pre-instantiated —
yet the run contains no `Start` invocation whatsoever. -/
theorem claim_C1_launch_never_invokes_start :
    (containerLaunch 10 launchEnv launchW).res = .ok () ∧
    (containerLaunch 10 launchEnv launchW).events =
      [.enterConstruct (.ctor 1), .newInstance 0 1 []] ∧
    ((containerLaunch 10 launchEnv launchW).events.filter isStartEvent)
      = [] ∧
    assocFind
        (containerLaunch 10 launchEnv launchW).world.container.singletons
        (.ctor 1) = some 0 ∧
    assocFind
        (containerLaunch 10 launchEnv launchW).world.container.singletons
        (.ctor 2) = none ∧
    (containerLaunch 10 launchEnv launchW).world.container.validated
      = true := by
  decide

/-! ## C4: operations on a destroyed scope -/

/-- C4 counterexample: the claim states that the debug snapshot on a
destroyed scope "fails immediately with an error"; on the concrete
destroyed scope 0 `DebugServices` instead succeeds and returns a snapshot —
the source performs no destroyed-check there. -/
theorem claim_C4_counterexample_debug_succeeds :
    scopeDebugServices plainEnv destroyedW 0 =
      some { scopeId := 0, parentScopeId := none, services := [],
             childScopes := 0, totalServices := 0 } := by
  decide

/-- C4 (amended): on a destroyed scope, resolve, provideExternal and
createChildScope fail immediately with an error, and `Destroy` is
idempotent (a second call returns without events or effect); the debug
snapshot, however, does not fail — it returns a snapshot of the cleared
scope. -/
theorem claim_C4_destroyed_scope (fuel : Nat) (env : Env) (w : World)
    (sid : Nat) (s : ScopeState) (t : Key) (chain : List Key) (i cls : Nat)
    (hs : nassocFind w.scopes sid = some s)
    (hd : s.destroyed = true) :
    scopeResolveWithContext (fuel + 1) env w sid t chain =
      ⟨[], w, .error (.destroyedScope sid)⟩ ∧
    scopeProvideRuntime env w sid t i cls =
      ⟨[], w, .error (.destroyedScope sid)⟩ ∧
    scopeCreateChildScope w sid = ⟨[], w, .error (.destroyedScope sid)⟩ ∧
    scopeDestroy (fuel + 1) env w sid = some ([], w) ∧
    (scopeDebugServices env w sid).isSome = true := by
  refine ⟨?_, ?_, ?_, ?_, ?_⟩
  · simp [scopeResolveWithContext, hs, hd]
  · simp [scopeProvideRuntime, hs, hd]
  · simp [scopeCreateChildScope, hs, hd]
  · simp [scopeDestroy, hs, hd]
  · simp [scopeDebugServices, hs]

/-- Witness for C4 at the destroyed scope 0. -/
theorem claim_C4_destroyed_scope_witness :
    scopeResolveWithContext (0 + 1) plainEnv destroyedW 0 (.token 3) [] =
      ⟨[], destroyedW, .error (.destroyedScope 0)⟩ ∧
    scopeProvideRuntime plainEnv destroyedW 0 (.token 3) 4 5 =
      ⟨[], destroyedW, .error (.destroyedScope 0)⟩ ∧
    scopeCreateChildScope destroyedW 0 =
      ⟨[], destroyedW, .error (.destroyedScope 0)⟩ ∧
    scopeDestroy (0 + 1) plainEnv destroyedW 0 = some ([], destroyedW) ∧
    (scopeDebugServices plainEnv destroyedW 0).isSome = true :=
  claim_C4_destroyed_scope 0 plainEnv destroyedW 0 { destroyed := true }
    (.token 3) [] 4 5 (by decide) rfl

/-! ## Preservation: resolution never rewrites the registration tables -/

theorem presv_refl (w : World) : presv w w := ⟨rfl, rfl, rfl, id⟩

theorem presv_trans {w1 w2 w3 : World} (h1 : presv w1 w2)
    (h2 : presv w2 w3) : presv w1 w3 :=
  ⟨h2.1.trans h1.1, h2.2.1.trans h1.2.1, h2.2.2.1.trans h1.2.2.1,
    fun h => h2.2.2.2 (h1.2.2.2 h)⟩

theorem presv_of_container_eq {w w2 : World}
    (h : w2.container = w.container) : presv w w2 :=
  ⟨by rw [h], by rw [h], by rw [h], fun hv => by rw [h]; exact hv⟩

theorem presv_andThen {α β : Type} (w : World) (o : Out α)
    (f : α → World → Out β) (h1 : presv w o.world)
    (h2 : ∀ a w2, presv w2 (f a w2).world) :
    presv w ((o.andThen f).world) := by
  unfold Out.andThen
  rcases o with ⟨evs, wo, res⟩
  cases res with
  | error e => exact h1
  | ok a => exact presv_trans h1 (h2 a wo)

theorem container_set_validated_self (c : ContainerState)
    (h : c.validated = true) : { c with validated := true } = c := by
  cases c; simp_all

theorem containerValidate_presv (env : Env) (w : World) :
    presv w (containerValidate env w).world := by
  unfold containerValidate
  split
  · exact presv_refl w
  · dsimp only
    split
    · exact presv_refl w
    · exact ⟨rfl, rfl, rfl, fun _ => rfl⟩

theorem updateScope_container (w : World) (sid : Nat)
    (f : ScopeState → ScopeState) :
    (updateScope w sid f).container = w.container := by
  unfold updateScope
  cases nassocFind w.scopes sid <;> rfl

theorem updateScope_instClasses (w : World) (sid : Nat)
    (f : ScopeState → ScopeState) :
    (updateScope w sid f).instClasses = w.instClasses := by
  unfold updateScope
  cases nassocFind w.scopes sid <;> rfl

theorem trackInstance_container (env : Env) (w : World) (sid i : Nat) :
    (trackInstance env w sid i).2.container = w.container := by
  unfold trackInstance
  cases nassocFind w.instClasses i with
  | none => rfl
  | some cls =>
      simp only
      split_ifs <;>
        simp [updateScope_container, tmRegisterTickable,
          tmRegisterFixedTickable, tmRegisterRenderTickable,
          tmEnsureHeartbeat, tmEnsureRender]

theorem resolve_presv : ∀ fuel : Nat,
    (∀ env w t, presv w (containerResolve fuel env w t).world) ∧
    (∀ env w reg chain sc ra,
      presv w (createInstanceWithContext fuel env w reg chain sc ra).world) ∧
    (∀ env w cls idxs chain sc ra acc,
      presv w (resolveDepsLoop fuel env w cls idxs chain sc ra acc).world) ∧
    (∀ env w t chain sc,
      presv w (resolveDependencyWithContext fuel env w t chain sc).world) ∧
    (∀ env w t sc, presv w (resolveMulti fuel env w t sc).world) ∧
    (∀ env w t impls sc acc,
      presv w (multiLoop fuel env w t impls sc acc).world) ∧
    (∀ env w reg sc ra,
      presv w (createInstance fuel env w reg sc ra).world) ∧
    (∀ env w sid t chain,
      presv w (scopeResolveWithContext fuel env w sid t chain).world) := by
  intro fuel
  induction fuel with
  | zero =>
      refine ⟨?_, ?_, ?_, ?_, ?_, ?_, ?_, ?_⟩ <;> intros <;> exact presv_refl _
  | succ n ih =>
      obtain ⟨ihCR, ihCI, ihDL, ihDW, ihRM, ihML, ihCRI, ihSR⟩ := ih
      refine ⟨?_, ?_, ?_, ?_, ?_, ?_, ?_, ?_⟩
      · intro env w t
        simp only [containerResolve]
        refine presv_andThen w _ _ (containerValidate_presv env w) ?_
        intro a w1
        split
        · exact presv_refl _
        · split
          · exact presv_refl _
          · split
            · exact presv_refl _
            · split
              · exact presv_refl _
              · refine presv_andThen w1 _ _ (ihCI ..) ?_
                intro i w2
                exact ⟨rfl, rfl, rfl, fun h => h⟩
      · intro env w reg chain sc ra
        simp only [createInstanceWithContext]
        split
        · exact presv_refl _
        · refine presv_andThen w _ _ (presv_refl _) ?_
          intro _ w1
          refine presv_andThen w1 _ _ (ihDL ..) ?_
          intro deps w2
          refine presv_andThen w2 _ _ (presv_of_container_eq rfl) ?_
          intro _ w3
          split <;> exact presv_refl _
      · intro env w cls idxs chain sc ra acc
        simp only [resolveDepsLoop]
        split
        · exact presv_refl _
        · split
          · exact ihDL ..
          · split
            · exact presv_refl _
            · split
              · exact presv_refl _
              · refine presv_andThen w _ _ (ihDW ..) ?_
                intro v w2
                exact ihDL ..
      · intro env w t chain sc
        simp only [resolveDependencyWithContext]
        split
        · exact ihRM ..
        · split
          · exact presv_refl _
          · split
            · exact presv_refl _
            · split
              · split
                · exact presv_refl _
                · refine presv_andThen w _ _ (ihCI ..) ?_
                  intro i w2
                  exact ⟨rfl, rfl, rfl, fun h => h⟩
              · split
                · exact presv_refl _
                · exact ihSR ..
              · refine presv_andThen w _ _ (ihCI ..) ?_
                intro i w2
                exact presv_refl _
      · intro env w t sc
        simp only [resolveMulti]
        refine presv_andThen w _ _ (ihML ..) ?_
        intro ids w2
        exact presv_refl _
      · intro env w t impls sc acc
        simp only [multiLoop]
        split
        · exact presv_refl _
        · refine presv_andThen w _ _ (ihCRI ..) ?_
          intro i w2
          exact ihML ..
      · intro env w reg sc ra
        simp only [createInstance]
        exact ihCI ..
      · intro env w sid t chain
        simp only [scopeResolveWithContext]
        split
        · exact presv_refl _
        · split
          · exact presv_refl _
          · split
            · exact presv_refl _
            · split
              · exact presv_refl _
              · split
                · split
                  · exact ihSR ..
                  · exact presv_refl _
                · split
                  · exact ihCR ..
                  · refine presv_andThen w _ _ (ihCI ..) ?_
                    intro i w2
                    exact presv_of_container_eq
                      (by rw [trackInstance_container, updateScope_container])
                  · refine presv_andThen w _ _ (ihCI ..) ?_
                    intro i w2
                    exact presv_refl _

/-! ## C6: scope destruction never evicts the singleton cache -/

theorem scopeUnregisterPhase_container (w : World) (s : ScopeState) :
    (scopeUnregisterPhase w s).2.container = w.container := rfl

theorem destroy_container : ∀ fuel : Nat,
    (∀ env w sid out, scopeDestroy fuel env w sid = some out →
      out.2.container = w.container) ∧
    (∀ env w cs out, destroyChildren fuel env w cs = some out →
      out.2.container = w.container) := by
  intro fuel
  induction fuel with
  | zero =>
      exact ⟨fun _ _ _ _ h => Option.noConfusion h,
        fun _ _ _ _ h => Option.noConfusion h⟩
  | succ n ih =>
      refine ⟨?_, ?_⟩
      · intro env w sid out h
        simp only [scopeDestroy] at h
        rcases hfind : nassocFind w.scopes sid with _ | s <;>
          rw [hfind] at h <;> dsimp only at h
        · cases h; rfl
        · by_cases hd : s.destroyed = true
          · rw [if_pos hd] at h; cases h; rfl
          · rw [if_neg hd] at h
            rcases hup : scopeUnregisterPhase w s with ⟨evA, wA⟩
            rw [hup] at h
            dsimp only at h
            rcases hch : destroyChildren n env wA s.childScopes
              with _ | ⟨evB, wB⟩ <;> rw [hch] at h
            · cases h
            · dsimp only at h
              cases h
              simp only
              rw [updateScope_container]
              have h2 := ih.2 env wA s.childScopes (evB, wB) hch
              simp only at h2
              rw [h2]
              have h3 := scopeUnregisterPhase_container w s
              rw [hup] at h3
              exact h3
      · intro env w cs out h
        simp only [destroyChildren] at h
        rcases cs with _ | ⟨c, rest⟩ <;> dsimp only at h
        · cases h; rfl
        · rcases hc : scopeDestroy n env w c with _ | ⟨ev1, w1⟩ <;>
            rw [hc] at h
          · cases h
          · dsimp only at h
            rcases hrest : destroyChildren n env w1 rest with _ | ⟨ev2, w2⟩
              <;> rw [hrest] at h
            · cases h
            · dsimp only at h
              cases h
              have h1 := ih.1 env w c (ev1, w1) hc
              have h2 := ih.2 env w1 rest (ev2, w2) hrest
              simp only at h1 h2 ⊢
              rw [h2, h1]

/-- The container operation `containerValidate` only flips the validated
bit. -/
theorem containerValidate_ok_container (env : Env) (w : World)
    (h : (containerValidate env w).res = .ok ()) :
    (containerValidate env w).world.container =
      { w.container with validated := true } ∧
    (containerValidate env w).events = [] := by
  unfold containerValidate at h ⊢
  by_cases hv : w.container.validated = true
  · rw [if_pos hv] at h ⊢
    exact ⟨(container_set_validated_self _ hv).symm, rfl⟩
  · rw [if_neg hv] at h ⊢
    dsimp only at h ⊢
    split at h
    · cases h
    · rename_i hlen
      rw [if_neg hlen]
      exact ⟨rfl, rfl⟩

/-- Resolve on a validated container whose singleton cache already holds
`token ↦ i` returns the cached instance with no effect. -/
theorem containerResolve_cached (g : Nat) (env : Env) (w2 : World)
    (token : Key) (i : Nat)
    (hval : w2.container.validated = true)
    (hsing : assocFind w2.container.singletons token = some i)
    (hk : ¬(token.isToken = true ∧
      (assocFind w2.container.keyedRegistrations token).isSome = true)) :
    containerResolve (g + 1) env w2 token = ⟨[], w2, .ok (.inst i)⟩ := by
  simp only [containerResolve, containerValidate, hval, if_true, andThen_ok,
    if_neg hk, hsing]
  rfl

/-- Inverting a successful `Resolve` that returned a plain instance: the
resulting world is validated, caches `token ↦ i`, and `token` has no keyed
registration. -/
theorem resolve_inst_inv (fuel : Nat) (env : Env) (w : World) (token : Key)
    (i : Nat) (ev1 : List Event) (w1 : World)
    (h1 : containerResolve fuel env w token = ⟨ev1, w1, .ok (.inst i)⟩) :
    w1.container.validated = true ∧
    assocFind w1.container.singletons token = some i ∧
    ¬(token.isToken = true ∧
      (assocFind w1.container.keyedRegistrations token).isSome = true) := by
  cases fuel with
  | zero => simp [containerResolve, Out.mk.injEq] at h1
  | succ n =>
      simp only [containerResolve] at h1
      rcases hv : containerValidate env w with ⟨evv, wv, rv⟩
      rw [hv] at h1
      simp only [Out.andThen] at h1
      cases rv with
      | error e => simp [Out.mk.injEq] at h1
      | ok a =>
          cases a
          have hvc := containerValidate_ok_container env w (by rw [hv])
          rw [hv] at hvc
          simp only at hvc
          obtain ⟨hvcon, _⟩ := hvc
          have hvval : wv.container.validated = true := by rw [hvcon]
          rw [Out.mk.injEq] at h1
          obtain ⟨hev, hw, hres⟩ := h1
          by_cases hcond : token.isToken = true ∧
              (assocFind wv.container.keyedRegistrations token).isSome = true
          · rw [if_pos hcond] at hres
            simp [resolveKeyedC] at hres
          · rw [if_neg hcond] at hw hres
            rcases hj : assocFind wv.container.singletons token with _ | j <;>
              rw [hj] at hw hres <;> dsimp only at hw hres
            · rcases hr : getRegistration wv.container token with _ | reg <;>
                rw [hr] at hw hres <;> dsimp only at hw hres
              · simp at hres
              · by_cases hlt : reg.lifetime ≠ Lifetime.singleton
                · rw [if_pos hlt] at hw hres
                  simp at hres
                · rw [if_neg hlt] at hw hres
                  rcases hc : createInstanceWithContext n env wv reg [] none []
                    with ⟨evc, wc, rc⟩
                  rw [hc] at hres hw
                  simp only [Out.andThen] at hres hw
                  cases rc with
                  | error e => simp at hres
                  | ok j =>
                      simp only at hres hw
                      rw [Except.ok.injEq, Value.inst.injEq] at hres
                      subst hres
                      have hpr : presv wv wc := by
                        have := (resolve_presv n).2.1 env wv reg [] none []
                        rw [hc] at this
                        exact this
                      subst hw
                      refine ⟨?_, by simp [assocFind_set_self], ?_⟩
                      · simp only
                        exact hpr.2.2.2 hvval
                      · intro hcon2
                        apply hcond
                        refine ⟨hcon2.1, ?_⟩
                        have hkeq : wc.container.keyedRegistrations
                            = wv.container.keyedRegistrations := hpr.2.2.1
                        have h3 := hcon2.2
                        simp only at h3
                        rw [hkeq] at h3
                        exact h3
            · rw [Except.ok.injEq, Value.inst.injEq] at hres
              subst hres
              subst hw
              exact ⟨hvval, hj, hcond⟩

/-- C6: resolving a singleton key twice returns the identical cached
instance, and destroying any scope does not evict the singleton cache:
after any successful `Scope.Destroy`, resolving the key again still yields
the very same instance. -/
theorem claim_C6_singletons_survive_destroy (fuel f2 f3 fd : Nat)
    (env : Env) (w : World) (token : Key) (i : Nat) (ev1 : List Event)
    (w1 : World)
    (h1 : containerResolve fuel env w token = ⟨ev1, w1, .ok (.inst i)⟩) :
    containerResolve (f2 + 1) env w1 token = ⟨[], w1, .ok (.inst i)⟩ ∧
    (∀ sid evs w2, scopeDestroy fd env w1 sid = some (evs, w2) →
      containerResolve (f3 + 1) env w2 token = ⟨[], w2, .ok (.inst i)⟩) := by
  obtain ⟨hval, hsing, hk⟩ := resolve_inst_inv fuel env w token i ev1 w1 h1
  refine ⟨containerResolve_cached f2 env w1 token i hval hsing hk, ?_⟩
  intro sid evs w2 hd
  have hc := (destroy_container fd).1 env w1 sid (evs, w2) hd
  simp only at hc
  exact containerResolve_cached f3 env w2 token i (by rw [hc]; exact hval)
    (by rw [hc]; exact hsing) (by rw [hc]; exact hk)

/-- Witness for C6: after resolving singleton `ctor 1` on `launchW`
(yielding instance 0 and the world `resolvedW`), a second resolve returns
the cached instance 0 unchanged, and any successful scope destroy leaves
the cache intact. -/
theorem claim_C6_singletons_survive_destroy_witness :
    containerResolve (0 + 1) launchEnv resolvedW (.ctor 1) =
      ⟨[], resolvedW, .ok (.inst 0)⟩ ∧
    (∀ sid evs w2, scopeDestroy 3 launchEnv resolvedW sid = some (evs, w2) →
      containerResolve (0 + 1) launchEnv w2 (.ctor 1) =
        ⟨[], w2, .ok (.inst 0)⟩) :=
  claim_C6_singletons_survive_destroy 10 0 0 3 launchEnv launchW (.ctor 1) 0
    [.enterConstruct (.ctor 1), .newInstance 0 1 []] resolvedW (by decide)

/-! ## C7: scope lookup precedence and external override -/

/-- C7 counterexample: with `PT` registered under **singleton** lifetime,
providing an external value (instance 100) for `PT` and then resolving the
dependent service `U` from the scope does *not* hand `U` the provided
value: dependency resolution for a singleton-registered key goes through
the container and bypasses the scope's externals, so `U` is constructed
with the freshly created container singleton (instance 0). -/
theorem claim_C7_counterexample_singleton_bypasses_external :
    (scopeProvideRuntime extEnv extSingletonW 0 (.token 0) 100 3).res
      = .ok () ∧
    assocFind
      ((nassocFind (scopeProvideRuntime extEnv extSingletonW 0 (.token 0)
        100 3).world.scopes 0).getD {}).externalInstances (.token 0)
      = some 100 ∧
    (scopeResolve 10 extEnv
      (scopeProvideRuntime extEnv extSingletonW 0 (.token 0) 100 3).world
      0 (.ctor 1)).res = .ok (.inst 1) ∧
    Event.newInstance 1 1 [.inst 0] ∈ (scopeResolve 10 extEnv
      (scopeProvideRuntime extEnv extSingletonW 0 (.token 0) 100 3).world
      0 (.ctor 1)).events ∧
    ((scopeResolve 10 extEnv
      (scopeProvideRuntime extEnv extSingletonW 0 (.token 0) 100 3).world
      0 (.ctor 1)).events.count (.newInstance 1 1 [.inst 100])) = 0 := by
  decide

theorem sRWC_external (fuel : Nat) (env : Env) (w : World) (sid : Nat)
    (token : Key) (chain : List Key) (s : ScopeState) (v : Nat)
    (hs : nassocFind w.scopes sid = some s) (hd : s.destroyed = false)
    (hx : assocFind s.externalInstances token = some v) :
    scopeResolveWithContext (fuel + 1) env w sid token chain =
      ⟨[], w, .ok (.inst v)⟩ := by
  simp only [scopeResolveWithContext, hs, hd, hx]
  rfl

theorem sRWC_cached (fuel : Nat) (env : Env) (w : World) (sid : Nat)
    (token : Key) (chain : List Key) (s : ScopeState) (v : Nat)
    (hs : nassocFind w.scopes sid = some s) (hd : s.destroyed = false)
    (hx : assocFind s.externalInstances token = none)
    (hc : assocFind s.scopedInstances token = some v) :
    scopeResolveWithContext (fuel + 1) env w sid token chain =
      ⟨[], w, .ok (.inst v)⟩ := by
  simp only [scopeResolveWithContext, hs, hd, hx, hc]
  rfl

theorem sRWC_parent (fuel : Nat) (env : Env) (w : World) (sid : Nat)
    (token : Key) (chain : List Key) (s : ScopeState) (p : Nat)
    (hs : nassocFind w.scopes sid = some s) (hd : s.destroyed = false)
    (hx : assocFind s.externalInstances token = none)
    (hc : assocFind s.scopedInstances token = none)
    (hr : getRegistration w.container token = none)
    (hp : s.parent = some p) :
    scopeResolveWithContext (fuel + 1) env w sid token chain =
      scopeResolveWithContext fuel env w p token chain := by
  simp only [scopeResolveWithContext, hs, hd, hx, hc, hr, hp]
  rfl

theorem sRWC_scoped (fuel : Nat) (env : Env) (w : World) (sid : Nat)
    (token : Key) (chain : List Key) (s : ScopeState)
    (reg : ServiceRegistration)
    (hs : nassocFind w.scopes sid = some s) (hd : s.destroyed = false)
    (hx : assocFind s.externalInstances token = none)
    (hc : assocFind s.scopedInstances token = none)
    (hr : getRegistration w.container token = some reg)
    (hlt : reg.lifetime = .scoped) :
    scopeResolveWithContext (fuel + 1) env w sid token chain =
      (createInstanceWithContext fuel env w reg chain (some sid)
        []).andThen fun i w2 =>
        (fun w3 =>
          ⟨(trackInstance env w3 sid i).1, (trackInstance env w3 sid i).2,
            .ok (.inst i)⟩)
        (updateScope w2 sid fun s =>
          { s with scopedInstances := assocSet s.scopedInstances token i }) := by
  simp only [scopeResolveWithContext, hs, hd, hx, hc, hr, hlt]
  rfl

theorem rdwc_scoped (fuel : Nat) (env : Env) (w : World) (token : Key)
    (chain : List Key) (sid : Nat) (reg : ServiceRegistration)
    (hm : ¬(token.isToken = true ∧
      (assocFind w.container.multiRegistrations token).isSome = true))
    (hk : ¬(token.isToken = true ∧
      (assocFind w.container.keyedRegistrations token).isSome = true))
    (hr : getRegistration w.container token = some reg)
    (hlt : reg.lifetime = .scoped) :
    resolveDependencyWithContext (fuel + 1) env w token chain (some sid) =
      scopeResolveWithContext fuel env w sid token chain := by
  simp only [resolveDependencyWithContext, if_neg hm, if_neg hk, hr, hlt]

theorem trackInstance_nocaps (env : Env) (w : World) (sid i cls : Nat)
    (hfind : nassocFind w.instClasses i = some cls)
    (h1 : (env.classes cls).hasDestroy = false)
    (h2 : (env.classes cls).hasTick = false)
    (h3 : (env.classes cls).hasFixedTick = false)
    (h4 : (env.classes cls).hasRenderTick = false) :
    trackInstance env w sid i = ([], w) := by
  simp [trackInstance, hfind, h1, h2, h3, h4]

/-- C7 (amended): resolution of a key *from a scope* checks the scope's
externals first (matching by exact key identity), then the scope's own
cache, then the container registration dispatched by lifetime, and only
when no registration exists does it recurse into the parent scope. A
service resolved from the scope that depends on `PT` receives the
externally provided value when `PT`'s registration has **scoped** lifetime
(dependency resolution then re-enters the scope, which hits the external);
when `PT` is registered singleton (or factory), dependency resolution goes
through the container and bypasses the externals (see the
counterexample). -/
theorem claim_C7_scope_lookup_precedence (fuel : Nat) (env : Env)
    (w : World) (sid : Nat) (s : ScopeState)
    (u : Nat) (pt : Key) (e : Nat) (regPT : ServiceRegistration)
    (hs : nassocFind w.scopes sid = some s)
    (hd : s.destroyed = false)
    (hucls : env.classes u =
      { dependencyTokens := [some pt], lifetimeMeta := some .scoped })
    (hnames : env.names pt ≠ "IContainer" ∧ env.names pt ≠ "IScope")
    (hxu : assocFind s.externalInstances (.ctor u) = none)
    (hcu : assocFind s.scopedInstances (.ctor u) = none)
    (hru : getRegistration w.container (.ctor u) =
      some ⟨.ctor u, some u, .scoped, .single, none⟩)
    (hmpt : ¬(pt.isToken = true ∧
      (assocFind w.container.multiRegistrations pt).isSome = true))
    (hkpt : ¬(pt.isToken = true ∧
      (assocFind w.container.keyedRegistrations pt).isSome = true))
    (hrpt : getRegistration w.container pt = some regPT)
    (hrptl : regPT.lifetime = .scoped)
    (hxpt : assocFind s.externalInstances pt = some e) :
    (∀ t v chain, assocFind s.externalInstances t = some v →
      scopeResolveWithContext (fuel + 1) env w sid t chain =
        ⟨[], w, .ok (.inst v)⟩) ∧
    (∀ t v chain, assocFind s.externalInstances t = none →
      assocFind s.scopedInstances t = some v →
      scopeResolveWithContext (fuel + 1) env w sid t chain =
        ⟨[], w, .ok (.inst v)⟩) ∧
    (∀ t chain p, assocFind s.externalInstances t = none →
      assocFind s.scopedInstances t = none →
      getRegistration w.container t = none → s.parent = some p →
      scopeResolveWithContext (fuel + 1) env w sid t chain =
        scopeResolveWithContext fuel env w p t chain) ∧
    (scopeResolve (fuel + 5) env w sid (.ctor u)).res
      = .ok (.inst w.nextInstanceId) ∧
    Event.newInstance w.nextInstanceId u [.inst e]
      ∈ (scopeResolve (fuel + 5) env w sid (.ctor u)).events := by
  have hmax : getMaxLength (env.classes u) = 1 := by rw [hucls]; rfl
  have hdep : depAt (env.classes u) 0 = some pt := by rw [hucls]; rfl
  have hrt : (env.classes u).runtimeParams = [] := by rw [hucls]
  have hdead : validateDeadService env u pt = none := by
    simp only [validateDeadService, hucls]
    rw [if_neg]
    simp only [not_or]
    exact ⟨hnames.1, hnames.2⟩
  -- the dependency PT resolves to the external e via the scope
  have dPT : resolveDependencyWithContext (fuel + 2) env w pt [.ctor u]
      (some sid) = ⟨[], w, .ok (.inst e)⟩ := by
    rw [show fuel + 2 = (fuel + 1) + 1 by omega,
      rdwc_scoped (fuel + 1) env w pt [.ctor u] sid regPT hmpt hkpt hrpt
        hrptl,
      sRWC_external fuel env w sid pt [.ctor u] s e hs hd hxpt]
  have lU : resolveDepsLoop (fuel + 3) env w u [0] [.ctor u] (some sid)
      [] [] = ⟨[], w, .ok [.inst e]⟩ := by
    rw [show fuel + 3 = (fuel + 2) + 1 by omega,
      resolveDepsLoop_dep (fuel + 2) env w u 0 [] [.ctor u] (some sid)
        [] [] pt hrt hdep hdead,
      dPT, andThen_ok]
    rfl
  have cU : createInstanceWithContext (fuel + 4) env w
      ⟨.ctor u, some u, .scoped, .single, none⟩ [] (some sid) [] =
      ⟨[.enterConstruct (.ctor u),
        .newInstance w.nextInstanceId u [.inst e]],
        { w with
          nextInstanceId := w.nextInstanceId + 1,
          instClasses := nassocSet w.instClasses w.nextInstanceId u },
        .ok w.nextInstanceId⟩ := by
    rw [show fuel + 4 = (fuel + 3) + 1 by omega,
      createInstanceWithContext_step (fuel + 3) env w
        ⟨.ctor u, some u, .scoped, .single, none⟩ [] (some sid) []
        (by simp)]
    simp only [andThen_ok]
    rw [show regClassOf ⟨.ctor u, some u, .scoped, .single, none⟩ = u
        from rfl,
      hmax, show List.range 1 = [0] from rfl,
      show (([] : List Key) ++
        [(⟨.ctor u, some u, .scoped, .single, none⟩ :
          ServiceRegistration).token]) = [Key.ctor u] from rfl,
      lU, andThen_ok]
    have hvl : validateLifecycle env u Lifetime.scoped = none := by
      simp [validateLifecycle, hucls]
    simp only [Out.andThen, hvl]
    rfl
  have hfindW3 : nassocFind (updateScope
      { w with
        nextInstanceId := w.nextInstanceId + 1,
        instClasses := nassocSet w.instClasses w.nextInstanceId u }
      sid fun s2 =>
        { s2 with scopedInstances :=
            assocSet s2.scopedInstances (.ctor u) w.nextInstanceId
        }).instClasses w.nextInstanceId = some u := by
    rw [updateScope_instClasses]
    exact nassocFind_set_self _ _ _
  have main : scopeResolve (fuel + 5) env w sid (.ctor u) =
      ⟨[.enterConstruct (.ctor u),
        .newInstance w.nextInstanceId u [.inst e]],
        (updateScope
          { w with
            nextInstanceId := w.nextInstanceId + 1,
            instClasses := nassocSet w.instClasses w.nextInstanceId u }
          sid fun s2 =>
            { s2 with scopedInstances :=
                assocSet s2.scopedInstances (.ctor u) w.nextInstanceId }),
        .ok (.inst w.nextInstanceId)⟩ := by
    unfold scopeResolve
    rw [show fuel + 5 = (fuel + 4) + 1 by omega,
      sRWC_scoped (fuel + 4) env w sid (.ctor u) [] s
        ⟨.ctor u, some u, .scoped, .single, none⟩ hs hd hxu hcu hru rfl,
      cU, andThen_ok]
    simp only
    rw [trackInstance_nocaps env _ sid w.nextInstanceId u hfindW3
      (by rw [hucls]) (by rw [hucls]) (by rw [hucls]) (by rw [hucls])]
    simp
  refine ⟨?_, ?_, ?_, ?_, ?_⟩
  · intro t v chain hx
    exact sRWC_external fuel env w sid t chain s v hs hd hx
  · intro t v chain hx hc
    exact sRWC_cached fuel env w sid t chain s v hs hd hx hc
  · intro t chain p hx hc hr hp
    exact sRWC_parent fuel env w sid t chain s p hs hd hx hc hr hp
  · rw [main]
  · rw [main]
    simp

/-- Witness for C7 at the spec's own scenario with `PT` registered scoped:
after `provideExternal(PT, 100)`, resolving `U` from the scope constructs
`U` (instance 0) with exactly the provided value as its dependency. -/
theorem claim_C7_scope_lookup_precedence_witness :
    (scopeProvideRuntime extEnv extScopedW 0 (.token 0) 100 3).res
      = .ok () ∧
    (scopeResolve (0 + 5) extEnv
      (scopeProvideRuntime extEnv extScopedW 0 (.token 0) 100 3).world
      0 (.ctor 1)).res = .ok (.inst 0) ∧
    Event.newInstance 0 1 [.inst 100] ∈ (scopeResolve (0 + 5) extEnv
      (scopeProvideRuntime extEnv extScopedW 0 (.token 0) 100 3).world
      0 (.ctor 1)).events := by
  have h := claim_C7_scope_lookup_precedence 0 extEnv
    (scopeProvideRuntime extEnv extScopedW 0 (.token 0) 100 3).world 0
    { externalInstances := [(.token 0, 100)] } 1 (.token 0) 100
    ⟨.token 0, some 2, .scoped, .single, none⟩
    (by decide) rfl rfl (by decide) (by decide) (by decide) (by decide)
    (by decide) (by decide) (by decide) rfl (by decide)
  exact ⟨by decide, h.2.2.2.1, h.2.2.2.2⟩

/-! ## C5: destruction order, tick silence and exactly-once destroyables

First the multiset effect of `unorderedRemove`-based unregistration. -/

theorem getLast?_set_getLast {α : Type} :
    ∀ (l : List α) (i : Nat) (x : α),
      l.getLast? = some x → (l.set i x).getLast? = some x := by
  intro l
  induction l with
  | nil => intro i x h; cases h
  | cons a rest ih =>
      intro i x h
      cases rest with
      | nil =>
          cases i with
          | zero => rfl
          | succ j => exact h
      | cons b rest2 =>
          rw [List.getLast?_cons_cons] at h
          cases i with
          | zero =>
              rw [List.set_cons_zero, List.getLast?_cons_cons]
              exact h
          | succ j =>
              rw [List.set_cons_succ]
              have h2 := ih j x h
              rcases hbr : (b :: rest2).set j x with _ | ⟨y, ys⟩
              · simp at hbr
              · rw [hbr] at h2
                rw [List.getLast?_cons_cons]
                exact h2

theorem count_unorderedRemove (l : List Nat) (i : Nat) (h : i < l.length)
    (t : Nat) :
    (unorderedRemove l i).count t =
      l.count t - (if l.get ⟨i, h⟩ = t then 1 else 0) := by
  have hne : l ≠ [] := List.ne_nil_of_length_pos (by omega)
  have hx : l.getLast? = some (l.getLast hne) :=
    List.getLast?_eq_getLast l hne
  unfold unorderedRemove
  rw [hx]
  have hAne : l.set i (l.getLast hne) ≠ [] :=
    List.ne_nil_of_length_pos (by rw [List.length_set]; omega)
  have hlast : (l.set i (l.getLast hne)).getLast? = some (l.getLast hne) :=
    getLast?_set_getLast l i _ hx
  have hgl : (l.set i (l.getLast hne)).getLast hAne = l.getLast hne := by
    have := List.getLast?_eq_getLast (l.set i (l.getLast hne)) hAne
    rw [this] at hlast
    exact Option.some.injEq _ _ ▸ hlast.symm ▸ rfl
  have hdecomp := List.dropLast_append_getLast hAne
  have hcnt : (l.set i (l.getLast hne)).count t =
      (l.set i (l.getLast hne)).dropLast.count t +
        (if l.getLast hne = t then 1 else 0) := by
    conv_lhs => rw [← hdecomp]
    rw [List.count_append, hgl, List.count_singleton]
    simp [beq_iff_eq]
  have hset := List.count_set (l.getLast hne) t l i h
  simp only [beq_iff_eq] at hset
  have hle : (if l[i] = t then 1 else 0) ≤ l.count t := by
    split
    · rename_i he
      have : t ∈ l := by
        rw [← he]
        exact List.getElem_mem h
      have := List.count_pos_iff.mpr this
      omega
    · omega
  dsimp only
  have hix : l.get ⟨i, h⟩ = l[i] := rfl
  rw [hix]
  omega

theorem indexOf_some (l : List Nat) (a i : Nat) (h : indexOf l a = some i) :
    ∃ hlt : i < l.length, l.get ⟨i, hlt⟩ = a := by
  unfold indexOf at h
  rw [List.findIdx?_eq_some_iff_findIdx_eq] at h
  obtain ⟨hlt, hidx⟩ := h
  refine ⟨hlt, ?_⟩
  have := @List.findIdx_getElem _ (fun x => decide (x = a)) l (by rw [hidx]; exact hlt)
  simp only [decide_eq_true_eq] at this
  rw [List.get_eq_getElem, ← this]
  congr 1
  exact hidx.symm

theorem indexOf_none (l : List Nat) (a : Nat) (h : indexOf l a = none) :
    a ∉ l := by
  unfold indexOf at h
  rw [List.findIdx?_eq_none_iff] at h
  intro hm
  have := h a hm
  simp at this

theorem count_removeFirst_le (l : List Nat) (a t : Nat) :
    (removeFirst l a).count t ≤ l.count t := by
  unfold removeFirst
  rcases hio : indexOf l a with _ | i
  · exact Nat.le_refl _
  · obtain ⟨hlt, _⟩ := indexOf_some l a i hio
    rw [count_unorderedRemove l i hlt t]
    omega

theorem count_removeFirst_other (l : List Nat) (a t : Nat) (h : a ≠ t) :
    (removeFirst l a).count t = l.count t := by
  unfold removeFirst
  rcases hio : indexOf l a with _ | i
  · rfl
  · obtain ⟨hlt, hget⟩ := indexOf_some l a i hio
    rw [count_unorderedRemove l i hlt t, hget, if_neg h]
    omega

theorem count_removeFirst_self (l : List Nat) (a : Nat)
    (h : l.count a ≤ 1) : (removeFirst l a).count a = 0 := by
  unfold removeFirst
  rcases hio : indexOf l a with _ | i
  · have := indexOf_none l a hio
    rw [List.count_eq_zero]
    exact this
  · obtain ⟨hlt, hget⟩ := indexOf_some l a i hio
    rw [count_unorderedRemove l i hlt a, hget, if_pos rfl]
    omega

theorem tmUnregisterTickable_eq (tm : TickState) (t : Nat) :
    tmUnregisterTickable tm t =
      { tm with tickables := removeFirst tm.tickables t } := by
  unfold tmUnregisterTickable removeFirst
  cases indexOf tm.tickables t <;> rfl

theorem tmUnregisterFixedTickable_tickables (tm : TickState) (t : Nat) :
    (tmUnregisterFixedTickable tm t).tickables = tm.tickables := by
  unfold tmUnregisterFixedTickable
  cases indexOf tm.fixedTickables t <;> rfl

theorem tmUnregisterRenderTickable_tickables (tm : TickState) (t : Nat) :
    (tmUnregisterRenderTickable tm t).tickables = tm.tickables := by
  unfold tmUnregisterRenderTickable
  cases indexOf tm.renderTickables t <;> rfl

theorem foldl_pair {β : Type} (g : Nat → Event) (step : β → Nat → β) :
    ∀ (L : List Nat) (init : List Event) (b : β),
      L.foldl (fun (p : List Event × β) t => (p.1 ++ [g t], step p.2 t))
          (init, b)
        = (init ++ L.map g, L.foldl step b) := by
  intro L
  induction L with
  | nil => intro init b; simp
  | cons x rest ih =>
      intro init b
      rw [List.foldl_cons, List.foldl_cons, ih, List.map_cons]
      simp

theorem scopeUnregisterPhase_spec (w : World) (s : ScopeState) :
    scopeUnregisterPhase w s =
      (unregEvents s, { w with tick := unregAll w.tick s }) := by
  unfold scopeUnregisterPhase unregAll unregEvents
  rw [foldl_pair Event.unregTick tmUnregisterTickable s.tickables [] w.tick]
  dsimp only
  rw [foldl_pair Event.unregFixedTick tmUnregisterFixedTickable
    s.fixedTickables []]
  dsimp only
  rw [foldl_pair Event.unregRenderTick tmUnregisterRenderTickable
    s.renderTickables []]
  simp

theorem count_foldl_unregT_le (t : Nat) :
    ∀ (L : List Nat) (tm : TickState),
      (L.foldl tmUnregisterTickable tm).tickables.count t ≤
        tm.tickables.count t := by
  intro L
  induction L with
  | nil => intro tm; exact Nat.le_refl _
  | cons x rest ih =>
      intro tm
      rw [List.foldl_cons]
      refine Nat.le_trans (ih _) ?_
      rw [tmUnregisterTickable_eq]
      exact count_removeFirst_le tm.tickables x t

theorem count_foldl_unregT_zero (t : Nat) :
    ∀ (L : List Nat) (tm : TickState), t ∈ L →
      tm.tickables.count t ≤ 1 →
      (L.foldl tmUnregisterTickable tm).tickables.count t = 0 := by
  intro L
  induction L with
  | nil => intro tm hm; cases hm
  | cons x rest ih =>
      intro tm hm hle
      rw [List.foldl_cons]
      by_cases hx : x = t
      · subst hx
        have h0 : (tmUnregisterTickable tm x).tickables.count x = 0 := by
          rw [tmUnregisterTickable_eq]
          exact count_removeFirst_self tm.tickables x hle
        have := count_foldl_unregT_le x rest (tmUnregisterTickable tm x)
        omega
      · have hmem : t ∈ rest := by
          cases hm with
          | head => exact absurd rfl hx
          | tail _ h => exact h
        refine ih (tmUnregisterTickable tm x) hmem ?_
        rw [tmUnregisterTickable_eq]
        rw [count_removeFirst_other tm.tickables x t hx]
        exact hle

theorem foldl_unregF_tickables :
    ∀ (L : List Nat) (tm : TickState),
      (L.foldl tmUnregisterFixedTickable tm).tickables = tm.tickables := by
  intro L
  induction L with
  | nil => intro tm; rfl
  | cons x rest ih =>
      intro tm
      rw [List.foldl_cons, ih, tmUnregisterFixedTickable_tickables]

theorem foldl_unregR_tickables :
    ∀ (L : List Nat) (tm : TickState),
      (L.foldl tmUnregisterRenderTickable tm).tickables = tm.tickables := by
  intro L
  induction L with
  | nil => intro tm; rfl
  | cons x rest ih =>
      intro tm
      rw [List.foldl_cons, ih, tmUnregisterRenderTickable_tickables]

theorem unregAll_tickables_count_le (tm : TickState) (s : ScopeState)
    (t : Nat) :
    (unregAll tm s).tickables.count t ≤ tm.tickables.count t := by
  unfold unregAll
  rw [foldl_unregR_tickables, foldl_unregF_tickables]
  exact count_foldl_unregT_le t s.tickables tm

theorem unregAll_tickables_count_zero (tm : TickState) (s : ScopeState)
    (t : Nat) (hm : t ∈ s.tickables) (hle : tm.tickables.count t ≤ 1) :
    (unregAll tm s).tickables.count t = 0 := by
  unfold unregAll
  rw [foldl_unregR_tickables, foldl_unregF_tickables]
  exact count_foldl_unregT_zero t s.tickables tm hm hle

theorem count_ticked_tickOne (env : Env) (x t : Nat) :
    (tickOne env .ticked x).count (.ticked t) =
      if x = t then 1 else 0 := by
  unfold tickOne
  by_cases hx : x = t
  · subst hx
    split <;> simp [List.count_cons]
  · have hne : (Event.ticked x) ≠ (Event.ticked t) := by
      intro hc
      cases hc
      exact hx rfl
    split <;> simp [List.count_cons, hne]

theorem count_ticked_flatMap (env : Env) (t : Nat) :
    ∀ L : List Nat,
      (L.flatMap (tickOne env .ticked)).count (.ticked t) = L.count t := by
  intro L
  induction L with
  | nil => rfl
  | cons x rest ih =>
      rw [List.flatMap_cons, List.count_append, ih, count_ticked_tickOne,
        List.count_cons]
      simp only [beq_iff_eq]
      by_cases hx : x = t <;> simp [hx] <;> omega

theorem count_ticked_fixed_flatMap (env : Env) (t : Nat) :
    ∀ L : List Nat,
      (L.flatMap (tickOne env .fixedTicked)).count (.ticked t) = 0 := by
  intro L
  induction L with
  | nil => rfl
  | cons x rest ih =>
      rw [List.flatMap_cons, List.count_append, ih]
      unfold tickOne
      split <;> simp [List.count_cons]

theorem tmHeartbeatStep_ticked_silent (env : Env) (tm : TickState) (t : Nat)
    (h : tm.tickables.count t = 0) :
    (tmHeartbeatStep env tm).count (.ticked t) = 0 := by
  unfold tmHeartbeatStep
  split
  · split
    · rfl
    · rw [List.count_append, count_ticked_flatMap, count_ticked_fixed_flatMap,
        h]
  · rfl

theorem count_destroyInvoked_destroyablesPhase (env : Env) (d : Nat) :
    ∀ ds : List Nat,
      (destroyablesPhase env ds).count (.destroyInvoked d) = ds.count d := by
  intro ds
  induction ds with
  | nil => rfl
  | cons x rest ih =>
      unfold destroyablesPhase at ih ⊢
      rw [List.flatMap_cons, List.count_append, ih, List.count_cons]
      simp only [beq_iff_eq]
      by_cases hx : x = d
      · subst hx
        split <;> simp [List.count_cons, List.count_nil] <;> omega
      · have hne : (Event.destroyInvoked x) ≠ (Event.destroyInvoked d) := by
          intro hc
          cases hc
          exact hx rfl
        split <;> simp [List.count_cons, List.count_nil, hne, hx] <;> omega

theorem count_destroyInvoked_unregEvents (s : ScopeState) (d : Nat) :
    (unregEvents s).count (.destroyInvoked d) = 0 := by
  rw [List.count_eq_zero]
  intro hmem
  simp [unregEvents, List.mem_append, List.mem_map] at hmem

theorem count_destroyInvoked_childEvents (env : Env)
    (st : Nat → ScopeState) (d : Nat) :
    ∀ cs : List Nat, (∀ c ∈ cs, d ∉ (st c).destroyables) →
      (cs.flatMap (fun c => unregEvents (st c) ++
          destroyablesPhase env (st c).destroyables)).count
        (.destroyInvoked d) = 0 := by
  intro cs
  induction cs with
  | nil => intro _; rfl
  | cons x rest ih =>
      intro h
      rw [List.flatMap_cons, List.count_append, List.count_append,
        count_destroyInvoked_unregEvents,
        count_destroyInvoked_destroyablesPhase,
        ih (fun c hc => h c (List.mem_cons_of_mem x hc))]
      have : (st x).destroyables.count d = 0 :=
        List.count_eq_zero.mpr (h x (List.mem_cons_self x rest))
      omega

theorem updateScope_tick (w : World) (sid : Nat) (f : ScopeState → ScopeState) :
    (updateScope w sid f).tick = w.tick := by
  unfold updateScope
  cases nassocFind w.scopes sid <;> rfl

theorem updateScope_scopes_found (w : World) (sid : Nat)
    (f : ScopeState → ScopeState) (s : ScopeState)
    (hs : nassocFind w.scopes sid = some s) :
    (updateScope w sid f).scopes = nassocSet w.scopes sid (f s) := by
  unfold updateScope
  rw [hs]

theorem scopeDestroy_step (fuel : Nat) (env : Env) (w : World) (sid : Nat) :
    scopeDestroy (fuel + 1) env w sid =
      match nassocFind w.scopes sid with
      | none => some ([], w)
      | some s =>
        if s.destroyed then some ([], w)
        else
          let (evA, w) := scopeUnregisterPhase w s
          match destroyChildren fuel env w s.childScopes with
          | none => none
          | some (evB, w) =>
            let evC := destroyablesPhase env s.destroyables
            let w := updateScope w sid (fun s =>
              { s with
                scopedInstances := [], externalInstances := [],
                childScopes := [], tickables := [], fixedTickables := [],
                renderTickables := [], destroyables := [],
                destroyed := true })
            some (evA ++ evB ++ evC, w) := rfl

theorem destroyChildren_nil (fuel : Nat) (env : Env) (w : World) :
    destroyChildren (fuel + 1) env w [] = some ([], w) := rfl

theorem destroyChildren_cons (fuel : Nat) (env : Env) (w : World) (c : Nat)
    (rest : List Nat) :
    destroyChildren (fuel + 1) env w (c :: rest) =
      match scopeDestroy fuel env w c with
      | none => none
      | some (ev1, w1) =>
        match destroyChildren fuel env w1 rest with
        | none => none
        | some (ev2, w2) => some (ev1 ++ ev2, w2) := rfl

theorem scopeDestroy_childless (fuel : Nat) (env : Env) (w : World)
    (sid : Nat) (s : ScopeState) (hs : nassocFind w.scopes sid = some s)
    (hd : s.destroyed = false) (hc : s.childScopes = []) :
    scopeDestroy (fuel + 2) env w sid =
      some (unregEvents s ++ destroyablesPhase env s.destroyables,
        updateScope { w with tick := unregAll w.tick s } sid clearScope) := by
  rw [show fuel + 2 = (fuel + 1) + 1 by omega, scopeDestroy_step, hs]
  dsimp only
  rw [hd]
  simp only [Bool.false_eq_true, if_false]
  rw [scopeUnregisterPhase_spec]
  dsimp only
  rw [hc, destroyChildren_nil]
  dsimp only
  rw [List.append_nil]
  rfl

theorem destroyChildren_childless (env : Env) (st : Nat → ScopeState) :
    ∀ (cs : List Nat) (fuel : Nat) (w : World), cs.Nodup →
      (∀ c ∈ cs, nassocFind w.scopes c = some (st c) ∧
        (st c).destroyed = false ∧ (st c).childScopes = []) →
      ∃ w2 : World,
        destroyChildren (fuel + 2 * cs.length + 1) env w cs =
          some (cs.flatMap
            (fun c => unregEvents (st c) ++
              destroyablesPhase env (st c).destroyables), w2) ∧
        (∀ t : Nat, w2.tick.tickables.count t ≤ w.tick.tickables.count t) ∧
        (∀ c ∈ cs, nassocFind w2.scopes c = some (clearScope (st c))) ∧
        (∀ x : Nat, x ∉ cs → nassocFind w2.scopes x = nassocFind w.scopes x)
    := by
  intro cs
  induction cs with
  | nil =>
      intro fuel w _ _
      refine ⟨w, ?_, ?_, ?_, ?_⟩
      · simp only [List.length_nil, Nat.mul_zero, Nat.add_zero]
        rw [destroyChildren_nil]
        rfl
      · intro t; exact Nat.le_refl _
      · intro c hc; cases hc
      · intro x _; rfl
  | cons c rest ih =>
      intro fuel w hnd h
      have hcnotin : c ∉ rest := (List.nodup_cons.mp hnd).1
      have hndrest : rest.Nodup := (List.nodup_cons.mp hnd).2
      obtain ⟨hfind, hdest, hchildless⟩ := h c (List.mem_cons_self c rest)
      rw [show fuel + 2 * (c :: rest).length + 1 =
        (fuel + 2 * rest.length + 2) + 1 by
          simp [List.length_cons]; omega]
      rw [destroyChildren_cons]
      rw [show fuel + 2 * rest.length + 2 = (fuel + 2 * rest.length) + 2 by
        omega]
      rw [scopeDestroy_childless (fuel + 2 * rest.length) env w c (st c)
        hfind hdest hchildless]
      dsimp only
      have hw1scopes :
          (updateScope { w with tick := unregAll w.tick (st c) } c
            clearScope).scopes =
            nassocSet w.scopes c (clearScope (st c)) :=
        updateScope_scopes_found _ c clearScope (st c) hfind
      have hrest : ∀ x ∈ rest,
          nassocFind (updateScope { w with tick := unregAll w.tick (st c) } c
            clearScope).scopes x = some (st x) ∧
          (st x).destroyed = false ∧ (st x).childScopes = [] := by
        intro x hx
        have hxc : x ≠ c := fun hxc => hcnotin (hxc ▸ hx)
        rw [hw1scopes, nassocFind_set_ne w.scopes c x (clearScope (st c))
          (fun he => hxc he.symm)]
        exact h x (List.mem_cons_of_mem c hx)
      obtain ⟨w2, heq, hle, hflags, hstable⟩ :=
        ih (fuel + 1)
          (updateScope { w with tick := unregAll w.tick (st c) } c clearScope)
          hndrest (fun x hx => hrest x hx)
      rw [show fuel + 2 * rest.length + 2 = (fuel + 1) + 2 * rest.length + 1
        by omega, heq]
      dsimp only
      refine ⟨w2, ?_, ?_, ?_, ?_⟩
      · rw [List.flatMap_cons]
      · intro t
        have h1 := hle t
        have h2 :
            (updateScope { w with tick := unregAll w.tick (st c) } c
              clearScope).tick = unregAll w.tick (st c) := by
          rw [updateScope_tick]
        rw [h2] at h1
        exact Nat.le_trans h1 (unregAll_tickables_count_le w.tick (st c) t)
      · intro x hx
        rcases List.mem_cons.mp hx with hxc | hxrest
        · subst hxc
          rw [hstable x hcnotin, hw1scopes,
            nassocFind_set_self w.scopes x (clearScope (st x))]
        · exact hflags x hxrest
      · intro x hx
        have hxc : x ≠ c := fun he => hx (he ▸ List.mem_cons_self c rest)
        have hxrest : x ∉ rest := fun he => hx (List.mem_cons_of_mem c he)
        rw [hstable x hxrest, hw1scopes,
          nassocFind_set_ne w.scopes c x (clearScope (st c))
            (fun he => hxc he.symm)]

/-- C5: `Scope.Destroy` proceeds in order — unregister every tracked
tickable of all three kinds, destroy every child scope recursively, invoke
`Destroy` on each tracked destroyable non-fatally, then clear all caches and
tracking lists and set the destroyed flag — read off the emitted event list
and the final scope objects; consequently a destroyable tracked once by the
scope and by no child is invoked exactly once, and a tickable tracked by the
scope receives no tick from a heartbeat fired after destruction completes. -/
theorem claim_C5_destroy_order (fuel : Nat) (env : Env) (w : World)
    (sid : Nat) (s : ScopeState) (st : Nat → ScopeState)
    (hs : nassocFind w.scopes sid = some s)
    (hd : s.destroyed = false)
    (hch : ∀ c ∈ s.childScopes, nassocFind w.scopes c = some (st c) ∧
      (st c).destroyed = false ∧ (st c).childScopes = [])
    (hnd : s.childScopes.Nodup)
    (hsid : sid ∉ s.childScopes) :
    ∃ (evs : List Event) (w2 : World),
      scopeDestroy (fuel + 2 * s.childScopes.length + 2) env w sid =
        some (evs, w2) ∧
      evs = unregEvents s ++
        s.childScopes.flatMap (fun c => unregEvents (st c) ++
          destroyablesPhase env (st c).destroyables) ++
        destroyablesPhase env s.destroyables ∧
      nassocFind w2.scopes sid = some (clearScope s) ∧
      (∀ c ∈ s.childScopes,
        nassocFind w2.scopes c = some (clearScope (st c))) ∧
      (∀ d : Nat, s.destroyables.count d = 1 →
        (∀ c ∈ s.childScopes, d ∉ (st c).destroyables) →
        evs.count (.destroyInvoked d) = 1) ∧
      (∀ t : Nat, t ∈ s.tickables → w.tick.tickables.count t ≤ 1 →
        (tmHeartbeatStep env w2.tick).count (.ticked t) = 0) := by
  rw [show fuel + 2 * s.childScopes.length + 2 =
    (fuel + 2 * s.childScopes.length + 1) + 1 by omega, scopeDestroy_step,
    hs]
  dsimp only
  rw [hd]
  simp only [Bool.false_eq_true, if_false]
  rw [scopeUnregisterPhase_spec]
  dsimp only
  obtain ⟨w2', heq, hle, hflags, hstable⟩ :=
    destroyChildren_childless env st s.childScopes fuel
      { w with tick := unregAll w.tick s } hnd (fun c hc => hch c hc)
  rw [heq]
  dsimp only
  have h1 : nassocFind w2'.scopes sid = some s := by
    rw [hstable sid hsid]
    exact hs
  refine ⟨_, _, rfl, rfl, ?_, ?_, ?_, ?_⟩
  · rw [updateScope_scopes_found w2' sid _ s h1,
      nassocFind_set_self w2'.scopes sid _]
    rfl
  · intro c hc
    have hcsid : c ≠ sid := fun he => hsid (he ▸ hc)
    rw [updateScope_scopes_found w2' sid _ s h1,
      nassocFind_set_ne w2'.scopes sid c _ (fun he => hcsid he.symm)]
    exact hflags c hc
  · intro d hcount hnotchild
    rw [List.count_append, List.count_append,
      count_destroyInvoked_unregEvents,
      count_destroyInvoked_childEvents env st d s.childScopes hnotchild,
      count_destroyInvoked_destroyablesPhase]
    omega
  · intro t hmem hle1
    rw [updateScope_tick w2' sid _]
    apply tmHeartbeatStep_ticked_silent
    have h3 := hle t
    dsimp only at h3
    have h4 := unregAll_tickables_count_zero w.tick s t hmem hle1
    omega

theorem claim_C5_destroy_order_witness :
    c5S.destroyed = false ∧
    ∃ (evs : List Event) (w2 : World),
      scopeDestroy 4 plainEnv c5W 0 = some (evs, w2) ∧
      evs = unregEvents c5S ++
        c5S.childScopes.flatMap (fun c => unregEvents c5C ++
          destroyablesPhase plainEnv c5C.destroyables) ++
        destroyablesPhase plainEnv c5S.destroyables ∧
      nassocFind w2.scopes 0 = some (clearScope c5S) ∧
      (∀ c ∈ c5S.childScopes,
        nassocFind w2.scopes c = some (clearScope c5C)) ∧
      (∀ d : Nat, c5S.destroyables.count d = 1 →
        (∀ c ∈ c5S.childScopes, d ∉ c5C.destroyables) →
        evs.count (.destroyInvoked d) = 1) ∧
      (∀ t : Nat, t ∈ c5S.tickables → c5W.tick.tickables.count t ≤ 1 →
        (tmHeartbeatStep plainEnv w2.tick).count (.ticked t) = 0) :=
  ⟨by decide,
   claim_C5_destroy_order 0 plainEnv c5W 0 c5S (fun _ => c5C)
     (by decide) (by decide) (by decide) (by decide) (by decide)⟩

end Oja
